import Mathlib

/-!
Verification of the PealerBeads color-quantization and pixel-editing core.

This file shallowly embeds the TypeScript sources (src/lib/pixelation.ts,
src/lib/pixelEditing.ts, src/lib/dithering.ts and the color-optimization
module) into Lean and proves or refutes the frozen specification claims.

Modelling conventions:
* JS numbers holding 8-bit channel values are `Nat`; differences are `Int`.
* The source compares floating-point redmean distances
  `sqrt((2 + rMean/256)·Δr² + 4·Δg² + (2 + (255-rMean)/256)·Δb²)`.
  All quantities under the square root are exact dyadic rationals with
  denominator 512 and magnitude below 2^21, hence exactly representable in
  float64, and distinct values under the root are separated by at least
  2^-9 while float64 sqrt introduces error far below the resulting gap of
  the square roots; therefore the source's `<` and `=== 0` comparisons on
  distances agree exactly with comparisons on the integer `512·distance²`.
  We embed the metric as that integer.
* Optional TS fields (`isExternal?: boolean`) are `Option Bool`; the JS
  coalescing `x ?? false` is `Option.getD x false`, and JS truthiness of
  the field coincides with `Option.getD x false` because both `undefined`
  and `false` are falsy.
* JS `Map` is an insertion-ordered association list: updating an existing
  key keeps its position, inserting a new key appends.
-/

structure RgbColor where
  r : Nat
  g : Nat
  b : Nat
deriving DecidableEq

structure PaletteColor where
  key : String
  hex : String
  rgb : RgbColor
deriving DecidableEq

structure MappedPixel where
  key : String
  color : String
  isExternal : Option Bool
deriving DecidableEq

/-- `TRANSPARENT_KEY` from pixelEditing.ts. -/
def TRANSPARENT_KEY : String := "ERASE"

/-- `transparentPixel` from pixelEditing.ts. -/
def transparentPixel : MappedPixel :=
  { key := TRANSPARENT_KEY, color := "#FFFFFF", isExternal := some true }

/-- A color is a real 8-bit RGB triple. -/
def RgbColor.Valid (c : RgbColor) : Prop := c.r ≤ 255 ∧ c.g ≤ 255 ∧ c.b ≤ 255

instance (c : RgbColor) : Decidable c.Valid := by
  unfold RgbColor.Valid; infer_instance

/-- 512 times the square of `perceptualDistance` from pixelation.ts
(the redmean metric).  With `rMean = (r₁+r₂)/2` the source computes
`sqrt((2 + rMean/256)·Δr² + 4·Δg² + (2 + (255-rMean)/256)·Δb²)`;
multiplying the radicand by 512 clears all denominators and yields
`(1024 + r₁ + r₂)·Δr² + 2048·Δg² + (1534 - r₁ - r₂)·Δb²`, an integer
that is a strictly monotone image of the source's distance, so every
comparison the source performs on distances is faithfully performed on
this value (see the header comment for the float-exactness argument). -/
def perceptualDistSq512 (a b : RgbColor) : Int :=
  (1024 + (a.r : Int) + (b.r : Int)) *
      ((a.r : Int) - (b.r : Int)) * ((a.r : Int) - (b.r : Int)) +
    2048 * ((a.g : Int) - (b.g : Int)) * ((a.g : Int) - (b.g : Int)) +
    (1024 + 510 - (a.r : Int) - (b.r : Int)) *
      ((a.b : Int) - (b.b : Int)) * ((a.b : Int) - (b.b : Int))

/-- Comparison of a finite distance against the current best, whose initial
value is JS `Infinity` (modelled by `none`). -/
def distLtInf (d : Int) : Option Int → Bool
  | none => true
  | some m => decide (d < m)

/-- The scan loop of `findClosestPaletteColor`: walks the palette tracking
the minimum-distance entry, short-circuiting on an exact match
(`if (d === 0) break`). -/
def closestLoop (target : RgbColor) :
    List PaletteColor → PaletteColor → Option Int → PaletteColor
  | [], best, _ => best
  | pc :: rest, best, bestDist =>
    if distLtInf (perceptualDistSq512 target pc.rgb) bestDist then
      if perceptualDistSq512 target pc.rgb = 0 then pc
      else closestLoop target rest pc (some (perceptualDistSq512 target pc.rgb))
    else
      closestLoop target rest best bestDist

/-- `findClosestPaletteColor` from pixelation.ts: exact nearest-palette
scan; on an empty palette returns the sentinel entry instead of failing. -/
def findClosestPaletteColor (target : RgbColor) (palette : List PaletteColor) :
    PaletteColor :=
  match palette with
  | [] => { key := "ERR", hex := "#000000", rgb := ⟨0, 0, 0⟩ }
  | p0 :: _ => closestLoop target palette p0 none

/-- One entry of the color lookup table built by `buildColorLookupTable`
(pixelation.ts).  `CLT_BITS = 5`, `CLT_SHIFT = 3`: the bucket `(ri,gi,bi)`
stores the exact nearest palette color to the bucket midpoint
`((ri<<3)|3, (gi<<3)|3, (bi<<3)|3) = (8·ri+3, 8·gi+3, 8·bi+3)`. -/
def cltEntry (palette : List PaletteColor) (ri gi bi : Nat) : PaletteColor :=
  findClosestPaletteColor ⟨8 * ri + 3, 8 * gi + 3, 8 * bi + 3⟩ palette

/-- The dense 32768-entry table of `buildColorLookupTable`, index
`(ri·32 + gi)·32 + bi`.  The source caches one such table keyed by palette
identity and rebuilds it whenever queried against a different palette
object; caching never changes the value read, so the table contents are
all that matters for the returned entry. -/
def buildColorLookupTable (palette : List PaletteColor) : List PaletteColor :=
  (List.range (32 * 32 * 32)).map fun idx =>
    cltEntry palette (idx / 1024) (idx / 32 % 32) (idx % 32)

/-- `findClosestPaletteColorFast` from pixelation.ts: truncates each channel
to its 5-bit bucket (`target.r >> 3` = `target.r / 8`) and reads the table
entry for that bucket; by construction of the table this is exactly
`cltEntry` at the bucket indices (see
`findClosestPaletteColorFast_eq_table`). -/
def findClosestPaletteColorFast (target : RgbColor) (palette : List PaletteColor) :
    PaletteColor :=
  cltEntry palette (target.r / 8) (target.g / 8) (target.b / 8)

theorem findClosestPaletteColorFast_eq_table (target : RgbColor)
    (palette : List PaletteColor) (h : target.Valid) :
    (buildColorLookupTable palette).get?
        ((target.r / 8 * 32 + target.g / 8) * 32 + target.b / 8) =
      some (findClosestPaletteColorFast target palette) := by
  obtain ⟨hr, hg, hb⟩ := h
  have hr8 : target.r / 8 ≤ 31 := by omega
  have hg8 : target.g / 8 ≤ 31 := by omega
  have hb8 : target.b / 8 ≤ 31 := by omega
  have hidx : (target.r / 8 * 32 + target.g / 8) * 32 + target.b / 8 < 32 * 32 * 32 := by
    omega
  rw [buildColorLookupTable, List.get?_eq_getElem?, List.getElem?_map]
  rw [List.getElem?_range hidx]
  simp only [Option.map_some']
  congr 2
  · omega
  · omega
  · omega

theorem perceptualDistSq512_self (a : RgbColor) : perceptualDistSq512 a a = 0 := by
  unfold perceptualDistSq512
  ring

theorem perceptualDistSq512_pos (a b : RgbColor) (ha : a.Valid) (hb : b.Valid)
    (hne : a ≠ b) : 0 < perceptualDistSq512 a b := by
  obtain ⟨har, hag, hab⟩ := ha
  obtain ⟨hbr, hbg, hbb⟩ := hb
  have hfields : a.r ≠ b.r ∨ a.g ≠ b.g ∨ a.b ≠ b.b := by
    by_contra hcon
    push_neg at hcon
    obtain ⟨h1, h2, h3⟩ := hcon
    exact hne (by cases a; cases b; simp_all)
  unfold perceptualDistSq512
  have hc1 : (1024 : Int) ≤ 1024 + (a.r : Int) + (b.r : Int) := by omega
  have hc3 : (1024 : Int) ≤ 1024 + 510 - (a.r : Int) - (b.r : Int) := by
    have h1 : (a.r : Int) ≤ 255 := by exact_mod_cast har
    have h2 : (b.r : Int) ≤ 255 := by exact_mod_cast hbr
    omega
  rcases hfields with h | h | h
  · have hdr : (1 : Int) ≤ ((a.r : Int) - b.r) * ((a.r : Int) - b.r) := by
      have hsplit : (a.r : Int) - b.r ≤ -1 ∨ 1 ≤ (a.r : Int) - b.r := by
        have : (a.r : Int) ≠ (b.r : Int) := by exact_mod_cast h
        omega
      rcases hsplit with h2 | h2 <;> nlinarith
    nlinarith [mul_self_nonneg ((a.g : Int) - b.g), mul_self_nonneg ((a.b : Int) - b.b)]
  · have hdg : (1 : Int) ≤ ((a.g : Int) - b.g) * ((a.g : Int) - b.g) := by
      have hsplit : (a.g : Int) - b.g ≤ -1 ∨ 1 ≤ (a.g : Int) - b.g := by
        have : (a.g : Int) ≠ (b.g : Int) := by exact_mod_cast h
        omega
      rcases hsplit with h2 | h2 <;> nlinarith
    nlinarith [mul_self_nonneg ((a.r : Int) - b.r), mul_self_nonneg ((a.b : Int) - b.b)]
  · have hdb : (1 : Int) ≤ ((a.b : Int) - b.b) * ((a.b : Int) - b.b) := by
      have hsplit : (a.b : Int) - b.b ≤ -1 ∨ 1 ≤ (a.b : Int) - b.b := by
        have : (a.b : Int) ≠ (b.b : Int) := by exact_mod_cast h
        omega
      rcases hsplit with h2 | h2 <;> nlinarith
    nlinarith [mul_self_nonneg ((a.r : Int) - b.r), mul_self_nonneg ((a.g : Int) - b.g)]

/-- Invariant for the best-distance accumulator of `closestLoop`: `none`
is the initial Infinity, and any finite recorded distance is positive
(an exact match breaks out of the loop at once, so 0 is never carried). -/
def BestDistOk : Option Int → Prop
  | none => True
  | some d => 0 < d

theorem closestLoop_find_first (target : RgbColor) (hT : target.Valid) :
    ∀ (l : List PaletteColor) (best : PaletteColor) (bd : Option Int)
      (e : PaletteColor),
      (∀ p ∈ l, p.rgb.Valid) → BestDistOk bd →
      l.find? (fun p => p.rgb = target) = some e →
      closestLoop target l best bd = e := by
  intro l
  induction l with
  | nil => intro best bd e _ _ hfind; simp at hfind
  | cons p rest ih =>
    intro best bd e hval hbd hfind
    by_cases hrgb : p.rgb = target
    · have he : e = p := by
        rw [List.find?_cons_of_pos] at hfind
        · exact (Option.some_inj.mp hfind).symm
        · simp [hrgb]
      subst he
      have hd0 : perceptualDistSq512 target e.rgb = 0 := by
        rw [hrgb]; exact perceptualDistSq512_self target
      cases bd with
      | none => simp [closestLoop, hd0, distLtInf]
      | some d =>
        have hdpos : (0 : Int) < d := hbd
        simp [closestLoop, hd0, distLtInf, hdpos]
    · have hfind2 : rest.find? (fun p => p.rgb = target) = some e := by
        rw [List.find?_cons_of_neg] at hfind
        · exact hfind
        · simp [hrgb]
      have hpv : p.rgb.Valid := hval p (by simp)
      have hdpos : 0 < perceptualDistSq512 target p.rgb :=
        perceptualDistSq512_pos _ _ hT hpv (fun h => hrgb h.symm)
      have hrest : ∀ q ∈ rest, q.rgb.Valid := fun q hq => hval q (by simp [hq])
      simp only [closestLoop]
      split
      · rw [if_neg hdpos.ne']
        exact ih p (some _) e hrest hdpos hfind2
      · exact ih best bd e hrest hbd hfind2

/-- Palette used to refute claim C1: the query (6,6,6) is exactly the
first entry, but its 5-bit bucket midpoint (3,3,3) is redmean-closer to
the second entry (0,0,1), so the fast path returns the wrong entry. -/
def demoMismatchPalette : List PaletteColor :=
  [⟨"A", "#060606", ⟨6, 6, 6⟩⟩, ⟨"B", "#000001", ⟨0, 0, 1⟩⟩]

/-- Claim C1 is false as stated: for the concrete palette
`demoMismatchPalette` and the query color (6,6,6), which is exactly the
rgb of palette entry "A", the exact path returns "A" but the fast path
(lookup of the bucket midpoint (3,3,3)) returns "B" ≠ "A". -/
theorem claim1_counterexample :
    demoMismatchPalette.get? 0 = some ⟨"A", "#060606", ⟨6, 6, 6⟩⟩ ∧
    findClosestPaletteColor ⟨6, 6, 6⟩ demoMismatchPalette =
      ⟨"A", "#060606", ⟨6, 6, 6⟩⟩ ∧
    findClosestPaletteColorFast ⟨6, 6, 6⟩ demoMismatchPalette =
      ⟨"B", "#000001", ⟨0, 0, 1⟩⟩ ∧
    (⟨"B", "#000001", ⟨0, 0, 1⟩⟩ : PaletteColor) ≠ ⟨"A", "#060606", ⟨6, 6, 6⟩⟩ := by
  refine ⟨rfl, by decide, by decide, by decide⟩

/-- Claim C1 (amended): for every palette whose entries are valid 8-bit
colors and every valid RGB color X exactly equal to the rgb of some
palette entry, the exact path `findClosestPaletteColor` returns the first
palette entry whose rgb equals X (an entry of the palette with rgb X);
the fast path `findClosestPaletteColorFast`, which answers with the
palette entry nearest to X's 5-bit bucket midpoint, can return a
different entry (see `claim1_counterexample`). -/
theorem claim1_amended_exact_match (target : RgbColor)
    (palette : List PaletteColor) (e : PaletteColor) (hT : target.Valid)
    (hval : ∀ p ∈ palette, p.rgb.Valid)
    (hfind : palette.find? (fun p => p.rgb = target) = some e) :
    findClosestPaletteColor target palette = e ∧ e ∈ palette ∧ e.rgb = target := by
  refine ⟨?_, List.mem_of_find?_eq_some hfind, ?_⟩
  · cases palette with
    | nil => simp at hfind
    | cons p0 rest =>
      exact closestLoop_find_first target hT (p0 :: rest) p0 none e hval trivial hfind
  · have := List.find?_some hfind
    simpa using this

/-- Two-entry palette with an exact match for the claim C1 witness. -/
def demoRedBlue : List PaletteColor :=
  [⟨"A", "#FF0000", ⟨255, 0, 0⟩⟩, ⟨"B", "#0000FF", ⟨0, 0, 255⟩⟩]

theorem claim1_witness :
    RgbColor.Valid ⟨255, 0, 0⟩ ∧ (∀ p ∈ demoRedBlue, p.rgb.Valid) ∧
    demoRedBlue.find? (fun p => p.rgb = ⟨255, 0, 0⟩) =
      some ⟨"A", "#FF0000", ⟨255, 0, 0⟩⟩ ∧
    (findClosestPaletteColor ⟨255, 0, 0⟩ demoRedBlue =
        ⟨"A", "#FF0000", ⟨255, 0, 0⟩⟩ ∧
      (⟨"A", "#FF0000", ⟨255, 0, 0⟩⟩ : PaletteColor) ∈ demoRedBlue ∧
      (⟨"A", "#FF0000", ⟨255, 0, 0⟩⟩ : PaletteColor).rgb = ⟨255, 0, 0⟩) :=
  ⟨by decide, by decide, by decide,
    claim1_amended_exact_match ⟨255, 0, 0⟩ demoRedBlue
      ⟨"A", "#FF0000", ⟨255, 0, 0⟩⟩ (by decide) (by decide) (by decide)⟩

/-- Claim C8: for every target RGB color, `findClosestPaletteColor` on the
empty palette returns the sentinel entry with key "ERR" and black color
instead of raising an error. -/
theorem claim8_empty_palette_sentinel (target : RgbColor) :
    findClosestPaletteColor target [] =
      { key := "ERR", hex := "#000000", rgb := ⟨0, 0, 0⟩ } := rfl

/-! ## Color optimization module (calculateMergePlan / applyColorMerge) -/

/-- `Map.set` of JS: updating an existing key keeps its position, a new
key is appended. -/
def mapSet (m : List (String × String)) (k v : String) : List (String × String) :=
  if m.any (fun p => p.1 = k) then
    m.map (fun p => if p.1 = k then (k, v) else p)
  else
    m ++ [(k, v)]

/-- `Map.get` of JS (`undefined` is `none`). -/
def mapGet? (m : List (String × String)) (k : String) : Option String :=
  (m.find? (fun p => p.1 = k)).map (fun p => p.2)

structure ColorUsage where
  hex : String
  key : String
  rgb : RgbColor
  count : Nat
deriving DecidableEq

structure MergeResult where
  mergeMap : List (String × String)
  mergeKeyMap : List (String × String)
  mergedCount : Nat
  colorsBefore : Nat
  colorsAfter : Nat
deriving DecidableEq

/-- Index pairs (i, j) with i < j < n in the visit order of the double
scan loop of `calculateMergePlan` (`for i; for j = i+1`). -/
def pairIndices (n : Nat) : List (Nat × Nat) :=
  (List.range n).flatMap fun i => (List.range' (i + 1) (n - (i + 1))).map fun j => (i, j)

/-- The pair scan of the merge loop: fold over all index pairs tracking
`(minDist, mergeA, mergeB)`, initialized to `(Infinity, 0, 1)` and updated
on strict improvement (`d < minDist`).  The wildcard arm is unreachable:
`pairIndices` only produces in-range indices. -/
def findClosestPairState (active : List ColorUsage) : Option Int × Nat × Nat :=
  (pairIndices active.length).foldl
    (fun st p =>
      match active.get? p.1, active.get? p.2 with
      | some a, some b =>
        if distLtInf (perceptualDistSq512 a.rgb b.rgb) st.1 then
          (some (perceptualDistSq512 a.rgb b.rgb), p.1, p.2)
        else st
      | _, _ => st)
    (none, 0, 1)

def findClosestPair (active : List ColorUsage) : Nat × Nat :=
  (findClosestPairState active).2

/-- Of the selected pair, the record with the smaller count is absorbed;
on equal counts the second scan index (`mergeB`) is the victim. -/
def victimRec (a b : ColorUsage) : ColorUsage := if b.count ≤ a.count then b else a

def survivorRec (a b : ColorUsage) : ColorUsage := if b.count ≤ a.count then a else b

def victimIdx (ab : Nat × Nat) (a b : ColorUsage) : Nat :=
  if b.count ≤ a.count then ab.2 else ab.1

def survivorIdx (ab : Nat × Nat) (a b : ColorUsage) : Nat :=
  if b.count ≤ a.count then ab.1 else ab.2

/-- Record victim→survivor in the merge map, then re-point every entry
whose value is the victim's hex to the survivor's hex (the path-compression
pass `for (const [oldHex, targetHex] of mergeMap.entries())`). -/
def mergeMapStep (mm : List (String × String)) (v s : ColorUsage) :
    List (String × String) :=
  (mapSet mm v.hex s.hex).map fun p => if p.2 = v.hex then (p.1, s.hex) else p

/-- The matching key-map updates: set victim→survivor-key, then for each
merge-map entry pointing at the victim, update its key entry as well. -/
def mergeKeyStep (mm km : List (String × String)) (v s : ColorUsage) :
    List (String × String) :=
  (mapSet mm v.hex s.hex).foldl
    (fun acc p => if p.2 = v.hex then mapSet acc p.1 s.key else acc)
    (mapSet km v.hex s.key)

/-- `active[survivor].count += active[victim].count` followed by
`active.splice(victim, 1)`. -/
def mergeActive (active : List ColorUsage) (ab : Nat × Nat) (a b : ColorUsage) :
    List ColorUsage :=
  (active.set (survivorIdx ab a b)
      { survivorRec a b with count := (survivorRec a b).count + (victimRec a b).count }).eraseIdx
    (victimIdx ab a b)

/-- The while-loop of `calculateMergePlan`.  `fuel` bounds iterations; the
callers pass `usage.length`, which can never be exhausted because each
iteration removes exactly one record.  `none` models the JS TypeError of
reading `active[mergeB].count` when `mergeB` is out of bounds (which the
defaults `mergeA = 0, mergeB = 1` make possible for `targetCount = 0` once
the working set has shrunk to a single color). -/
def mergeLoop (targetCount : Nat) :
    Nat → List ColorUsage → List (String × String) → List (String × String) →
    Option (List ColorUsage × List (String × String) × List (String × String))
  | 0, active, mm, km =>
    if active.length ≤ targetCount then some (active, mm, km) else none
  | fuel + 1, active, mm, km =>
    if active.length ≤ targetCount then some (active, mm, km)
    else
      match active.get? (findClosestPair active).1,
          active.get? (findClosestPair active).2 with
      | some a, some b =>
        mergeLoop targetCount fuel (mergeActive active (findClosestPair active) a b)
          (mergeMapStep mm (victimRec a b) (survivorRec a b))
          (mergeKeyStep mm km (victimRec a b) (survivorRec a b))
      | _, _ => none

/-- `calculateMergePlan` from the color-optimization module: early no-op
plan when the usage already fits the target, otherwise the greedy merge
loop.  `mergedCount` is `mergeMap.size`, i.e. the number of distinct keys
of the association list, which equals its length since `mapSet` never
duplicates keys. -/
def calculateMergePlan (usage : List ColorUsage) (targetCount : Nat) :
    Option MergeResult :=
  if usage.length ≤ targetCount then
    some ⟨[], [], 0, usage.length, usage.length⟩
  else
    (mergeLoop targetCount usage.length usage [] []).map fun r =>
      ⟨r.2.1, r.2.2, r.2.1.length, usage.length, r.1.length⟩

/-- One entry of `getMergePreview`.  The source stores the float distance
`minDist` at selection time; we store the order-isomorphic `512·distance²`
(`none` would be the initial Infinity, unreachable once a pair exists). -/
structure MergePreviewItem where
  fromHex : String
  fromKey : String
  fromCount : Nat
  toHex : String
  toKey : String
  distSq512 : Option Int
deriving DecidableEq

/-- The loop of `getMergePreview`: identical merging, but records the
ordered merge steps instead of the maps. -/
def previewLoop (targetCount : Nat) :
    Nat → List ColorUsage → List MergePreviewItem → Option (List MergePreviewItem)
  | 0, active, acc =>
    if active.length ≤ targetCount then some acc else none
  | fuel + 1, active, acc =>
    if active.length ≤ targetCount then some acc
    else
      match active.get? (findClosestPair active).1,
          active.get? (findClosestPair active).2 with
      | some a, some b =>
        previewLoop targetCount fuel (mergeActive active (findClosestPair active) a b)
          (acc ++ [⟨(victimRec a b).hex, (victimRec a b).key, (victimRec a b).count,
            (survivorRec a b).hex, (survivorRec a b).key,
            (findClosestPairState active).1⟩])
      | _, _ => none

def getMergePreview (usage : List ColorUsage) (targetCount : Nat) :
    Option (List MergePreviewItem) :=
  if usage.length ≤ targetCount then some []
  else previewLoop targetCount usage.length usage []

/-- JS `String.prototype.toUpperCase`, restricted to the ASCII strings the
program handles (hex color strings): upper-cases every character.  Defined
on the character list so that it evaluates inside the kernel. -/
def toUpperStr (s : String) : String := ⟨s.data.map Char.toUpper⟩

/-- Per-cell action of `applyColorMerge`'s inner loop: external and
transparent-key cells are skipped; otherwise the upper-cased color is
looked up in the merge map, and a truthy (non-empty) result rewrites key,
color and clears the external flag. -/
def mergeCell (mm km : List (String × String)) (cell : MappedPixel) : MappedPixel :=
  if cell.isExternal.getD false ∨ cell.key = TRANSPARENT_KEY then cell
  else
    match mapGet? mm (toUpperStr cell.color) with
    | none => cell
    | some newHex =>
      if newHex = "" then cell
      else ⟨(mapGet? km (toUpperStr cell.color)).getD cell.key, newHex, some false⟩

/-- `applyColorMerge`: value-level semantics of the row loop (the source's
copy-row-on-first-change structural sharing does not affect cell values). -/
def applyColorMerge (pixels : List (List MappedPixel))
    (mm km : List (String × String)) : List (List MappedPixel) :=
  if mm.length = 0 then pixels
  else pixels.map fun row => row.map (mergeCell mm km)

/-- The usage list of the claim C5 scenario; each `rgb` is the value
`hexToRgb` parses from the record's hex string. -/
def usage5 : List ColorUsage :=
  [⟨"#000000", "K0", ⟨0, 0, 0⟩, 10⟩, ⟨"#010101", "K1", ⟨1, 1, 1⟩, 5⟩,
    ⟨"#FFFFFF", "K2", ⟨255, 255, 255⟩, 1⟩]

/-- Claim C5: on usage5 with target 1, the two near-black colors merge
first (their scaled squared distance 4606 is the global minimum), the
survivor is "#000000" (count 10 ≥ 5), then white merges into it
(distance² scaled: 4606·65025), and the final merge map sends both
"#010101" and "#FFFFFF" to "#000000". -/
theorem claim5_merge_scenario :
    calculateMergePlan usage5 1 =
      some ⟨[("#010101", "#000000"), ("#FFFFFF", "#000000")],
        [("#010101", "K0"), ("#FFFFFF", "K0")], 2, 3, 1⟩ ∧
    getMergePreview usage5 1 =
      some [⟨"#010101", "K1", 5, "#000000", "K0", some 4606⟩,
        ⟨"#FFFFFF", "K2", 1, "#000000", "K0", some 299505150⟩] := by
  exact ⟨by decide, by decide⟩

/-! ## Helper list lemmas for the merge-plan invariants -/

theorem list_set_self {α : Type _} : ∀ (l : List α) (i : Nat) (a : α),
    l.get? i = some a → l.set i a = l
  | [], _, _, h => by simp at h
  | x :: t, 0, a, h => by
    have hx : x = a := by simpa using h
    simp [hx]
  | x :: t, i + 1, a, h => by
    have ht : t.set i a = t := list_set_self t i a (by simpa using h)
    simp [ht]

theorem list_map_eraseIdx {α β : Type _} (f : α → β) :
    ∀ (l : List α) (i : Nat), (l.eraseIdx i).map f = (l.map f).eraseIdx i
  | [], _ => by simp
  | _ :: _, 0 => by simp [List.eraseIdx]
  | x :: t, i + 1 => by
    simp only [List.eraseIdx, List.map_cons]
    rw [list_map_eraseIdx f t i]

theorem list_eraseIdx_eq_erase {α : Type _} [DecidableEq α] :
    ∀ (l : List α) (i : Nat) (a : α), l.Nodup → l.get? i = some a →
      l.eraseIdx i = l.erase a
  | [], _, _, _, h => by simp at h
  | x :: t, 0, a, _, h => by
    have hx : x = a := by simpa using h
    subst hx
    simp [List.eraseIdx]
  | x :: t, i + 1, a, hnd, h => by
    have hta : t.get? i = some a := by simpa using h
    have hmem : a ∈ t := List.get?_mem hta
    have hx : x ≠ a := by
      intro hxa
    -- head of a nodup list is not in the tail
      subst hxa
      exact (List.nodup_cons.mp hnd).1 hmem
    have ih := list_eraseIdx_eq_erase t i a (List.nodup_cons.mp hnd).2 hta
    simp only [List.eraseIdx]
    rw [List.erase_cons_tail, ih]
    simp [hx]

theorem list_nodup_get?_ne {α : Type _} : ∀ (l : List α), l.Nodup →
    ∀ (i j : Nat) (u v : α), i ≠ j → l.get? i = some u → l.get? j = some v → u ≠ v := by
  intro l
  induction l with
  | nil => intro _ i j u v _ h; simp at h
  | cons x t ih =>
    intro hnd i j u v hij hu hv
    match i, j with
    | 0, 0 => exact absurd rfl hij
    | 0, j + 1 =>
      have hx : x = u := by simpa using hu
      have hmem : v ∈ t := List.get?_mem (by simpa using hv)
      subst hx
      intro huv
      exact (List.nodup_cons.mp hnd).1 (huv ▸ hmem)
    | i + 1, 0 =>
      have hx : x = v := by simpa using hv
      have hmem : u ∈ t := List.get?_mem (by simpa using hu)
      subst hx
      intro huv
      exact (List.nodup_cons.mp hnd).1 (huv ▸ hmem)
    | i + 1, j + 1 =>
      exact ih (List.nodup_cons.mp hnd).2 i j u v (by omega)
        (by simpa using hu) (by simpa using hv)

theorem mem_mapSet (m : List (String × String)) (k v : String) :
    ∀ q ∈ mapSet m k v, q = (k, v) ∨ (q ∈ m ∧ q.1 ≠ k) := by
  intro q hq
  unfold mapSet at hq
  split at hq
  · obtain ⟨p, hp, hfq⟩ := List.mem_map.mp hq
    by_cases hpk : p.1 = k
    · left
      rw [if_pos hpk] at hfq
      exact hfq.symm
    · right
      rw [if_neg hpk] at hfq
      exact ⟨hfq ▸ hp, hfq ▸ hpk⟩
  · rename_i hany
    rcases List.mem_append.mp hq with hmem | hkv
    · right
      refine ⟨hmem, fun hqk => hany ?_⟩
      exact List.any_eq_true.mpr ⟨q, hmem, by simpa using hqk⟩
    · left
      simpa using hkv

theorem mapSet_length_of_no_key (m : List (String × String)) (k v : String)
    (h : ∀ p ∈ m, p.1 ≠ k) : (mapSet m k v).length = m.length + 1 := by
  unfold mapSet
  rw [if_neg]
  · simp
  · intro hany
    obtain ⟨p, hp, hpk⟩ := List.any_eq_true.mp hany
    exact h p hp (by simpa using hpk)

theorem mem_pairIndices (n : Nat) (p : Nat × Nat) (h : p ∈ pairIndices n) :
    p.1 < p.2 ∧ p.2 < n := by
  unfold pairIndices at h
  obtain ⟨i, hi, hmap⟩ := List.mem_flatMap.mp h
  obtain ⟨j, hj, hpj⟩ := List.mem_map.mp hmap
  have hin : i < n := List.mem_range.mp hi
  have hjr := List.mem_range'_1.mp hj
  subst hpj
  exact ⟨by omega, by omega⟩

theorem foldl_invariant {α β : Type _} (P : β → Prop) (f : β → α → β) :
    ∀ (l : List α) (b : β), P b → (∀ st, P st → ∀ x ∈ l, P (f st x)) →
      P (l.foldl f b)
  | [], _, hb, _ => hb
  | x :: t, b, hb, hstep => by
    simp only [List.foldl_cons]
    exact foldl_invariant P f t (f b x) (hstep b hb x (by simp))
      (fun st hst y hy => hstep st hst y (by simp [hy]))

theorem findClosestPairState_snd_bounds (active : List ColorUsage) :
    (findClosestPairState active).2.1 < (findClosestPairState active).2.2 ∧
      ((findClosestPairState active).2.2 < active.length ∨
        (findClosestPairState active).2.2 = 1) := by
  unfold findClosestPairState
  refine foldl_invariant
    (fun (st : Option Int × Nat × Nat) =>
      st.2.1 < st.2.2 ∧ (st.2.2 < active.length ∨ st.2.2 = 1))
    _ _ _ ⟨Nat.zero_lt_one, Or.inr rfl⟩ ?_
  · intro st hst p hp
    obtain ⟨hlt, hsnd⟩ := mem_pairIndices active.length p hp
    cases hA : active.get? p.1 with
    | none => simpa [hA] using hst
    | some a =>
      cases hB : active.get? p.2 with
      | none => simpa [hA, hB] using hst
      | some b =>
        simp only [hA, hB]
        split
        · exact ⟨hlt, Or.inl hsnd⟩
        · exact hst

theorem findClosestPair_fst_lt_snd (active : List ColorUsage) :
    (findClosestPair active).1 < (findClosestPair active).2 :=
  (findClosestPairState_snd_bounds active).1

/-! ## Merge-plan invariants -/

/-- Every value of the merge map names a hex still in the working set. -/
def ValuesActive (mm : List (String × String)) (active : List ColorUsage) : Prop :=
  ∀ p ∈ mm, p.2 ∈ active.map ColorUsage.hex

/-- No key of the merge map (an absorbed hex) is still in the working set. -/
def KeysRemoved (mm : List (String × String)) (active : List ColorUsage) : Prop :=
  ∀ p ∈ mm, p.1 ∉ active.map ColorUsage.hex

theorem victim_get (active : List ColorUsage) (ab : Nat × Nat) (a b : ColorUsage)
    (hA : active.get? ab.1 = some a) (hB : active.get? ab.2 = some b) :
    active.get? (victimIdx ab a b) = some (victimRec a b) := by
  unfold victimIdx victimRec
  split <;> assumption

theorem survivor_get (active : List ColorUsage) (ab : Nat × Nat) (a b : ColorUsage)
    (hA : active.get? ab.1 = some a) (hB : active.get? ab.2 = some b) :
    active.get? (survivorIdx ab a b) = some (survivorRec a b) := by
  unfold survivorIdx survivorRec
  split <;> assumption

theorem victim_ne_survivor_idx (ab : Nat × Nat) (a b : ColorUsage)
    (h : ab.1 ≠ ab.2) : victimIdx ab a b ≠ survivorIdx ab a b := by
  unfold victimIdx survivorIdx
  split
  · exact Ne.symm h
  · exact h

theorem get?_some_lt {α : Type _} {l : List α} {i : Nat} {a : α}
    (h : l.get? i = some a) : i < l.length := by
  by_contra hge
  push_neg at hge
  rw [List.get?_eq_none.mpr hge] at h
  cases h

theorem get?_hex_mem {active : List ColorUsage} {i : Nat} {u : ColorUsage}
    (h : active.get? i = some u) : u.hex ∈ active.map ColorUsage.hex :=
  List.mem_map.mpr ⟨u, List.get?_mem h, rfl⟩

theorem mergeActive_hexes (active : List ColorUsage) (ab : Nat × Nat)
    (a b : ColorUsage) (hA : active.get? ab.1 = some a)
    (hB : active.get? ab.2 = some b) :
    (mergeActive active ab a b).map ColorUsage.hex =
      (active.map ColorUsage.hex).eraseIdx (victimIdx ab a b) := by
  unfold mergeActive
  rw [list_map_eraseIdx]
  congr 1
  rw [List.map_set]
  exact list_set_self _ _ _
    (by rw [List.get?_map, survivor_get active ab a b hA hB]; rfl)

theorem mergeActive_length (active : List ColorUsage) (ab : Nat × Nat)
    (a b : ColorUsage) (hA : active.get? ab.1 = some a)
    (hB : active.get? ab.2 = some b) :
    (mergeActive active ab a b).length = active.length - 1 := by
  unfold mergeActive
  have hvlt : victimIdx ab a b < active.length :=
    get?_some_lt (victim_get active ab a b hA hB)
  rw [List.length_eraseIdx_of_lt (by simpa using hvlt)]
  simp

theorem merge_step_facts (active : List ColorUsage) (ab : Nat × Nat)
    (a b : ColorUsage) (hnd : (active.map ColorUsage.hex).Nodup)
    (hA : active.get? ab.1 = some a) (hB : active.get? ab.2 = some b)
    (hab : ab.1 ≠ ab.2) :
    ((mergeActive active ab a b).map ColorUsage.hex).Nodup ∧
    (victimRec a b).hex ∉ (mergeActive active ab a b).map ColorUsage.hex ∧
    (survivorRec a b).hex ∈ (mergeActive active ab a b).map ColorUsage.hex ∧
    (∀ x, x ∈ active.map ColorUsage.hex → x ≠ (victimRec a b).hex →
      x ∈ (mergeActive active ab a b).map ColorUsage.hex) ∧
    (∀ x, x ∈ (mergeActive active ab a b).map ColorUsage.hex →
      x ∈ active.map ColorUsage.hex) := by
  have hv := victim_get active ab a b hA hB
  have hs := survivor_get active ab a b hA hB
  have hvm : (active.map ColorUsage.hex).get? (victimIdx ab a b) =
      some (victimRec a b).hex := by rw [List.get?_map, hv]; rfl
  have hsm : (active.map ColorUsage.hex).get? (survivorIdx ab a b) =
      some (survivorRec a b).hex := by rw [List.get?_map, hs]; rfl
  have hexes_eq := mergeActive_hexes active ab a b hA hB
  have herase : (active.map ColorUsage.hex).eraseIdx (victimIdx ab a b) =
      (active.map ColorUsage.hex).erase (victimRec a b).hex :=
    list_eraseIdx_eq_erase _ _ _ hnd hvm
  rw [hexes_eq, herase]
  have hvs_ne : (survivorRec a b).hex ≠ (victimRec a b).hex :=
    list_nodup_get?_ne _ hnd _ _ _ _
      (Ne.symm (victim_ne_survivor_idx ab a b hab)) hsm hvm
  refine ⟨?_, ?_, ?_, ?_, ?_⟩
  · exact List.Nodup.sublist (List.erase_sublist _ _) hnd
  · intro hmem
    exact ((hnd.mem_erase_iff).mp hmem).1 rfl
  · exact (hnd.mem_erase_iff).mpr ⟨hvs_ne, get?_hex_mem hs⟩
  · intro x hx hne
    exact (hnd.mem_erase_iff).mpr ⟨hne, hx⟩
  · intro x hx
    exact (List.erase_sublist _ _).subset hx

theorem mergeMapStep_key_cases (mm : List (String × String)) (v s : ColorUsage) :
    ∀ q ∈ mergeMapStep mm v s, q.1 = v.hex ∨ (∃ p ∈ mm, q.1 = p.1) := by
  intro q hq
  unfold mergeMapStep at hq
  obtain ⟨p, hp, hfq⟩ := List.mem_map.mp hq
  rcases mem_mapSet mm v.hex s.hex p hp with hkv | ⟨hpm, _⟩
  · subst hkv
    left
    by_cases hc : s.hex = v.hex
    · rw [if_pos hc] at hfq
      exact hfq ▸ rfl
    · rw [if_neg hc] at hfq
      exact hfq ▸ rfl
  · right
    refine ⟨p, hpm, ?_⟩
    by_cases hc : p.2 = v.hex
    · rw [if_pos hc] at hfq
      exact hfq ▸ rfl
    · rw [if_neg hc] at hfq
      exact hfq ▸ rfl

theorem mergeMapStep_value_cases (mm : List (String × String)) (v s : ColorUsage) :
    ∀ q ∈ mergeMapStep mm v s,
      q.2 = s.hex ∨ ((∃ p ∈ mm, q.2 = p.2) ∧ q.2 ≠ v.hex) := by
  intro q hq
  unfold mergeMapStep at hq
  obtain ⟨p, hp, hfq⟩ := List.mem_map.mp hq
  rcases mem_mapSet mm v.hex s.hex p hp with hkv | ⟨hpm, _⟩
  · subst hkv
    left
    by_cases hc : s.hex = v.hex
    · rw [if_pos hc] at hfq
      exact hfq ▸ rfl
    · rw [if_neg hc] at hfq
      exact hfq ▸ rfl
  · by_cases hc : p.2 = v.hex
    · rw [if_pos hc] at hfq
      left
      exact hfq ▸ rfl
    · rw [if_neg hc] at hfq
      right
      exact ⟨⟨p, hpm, hfq ▸ rfl⟩, hfq ▸ hc⟩

theorem mergeMapStep_invariants (active : List ColorUsage) (ab : Nat × Nat)
    (a b : ColorUsage) (mm : List (String × String))
    (hnd : (active.map ColorUsage.hex).Nodup)
    (hA : active.get? ab.1 = some a) (hB : active.get? ab.2 = some b)
    (hab : ab.1 ≠ ab.2)
    (hI1 : ValuesActive mm active) (hI2 : KeysRemoved mm active) :
    ValuesActive (mergeMapStep mm (victimRec a b) (survivorRec a b))
        (mergeActive active ab a b) ∧
      KeysRemoved (mergeMapStep mm (victimRec a b) (survivorRec a b))
        (mergeActive active ab a b) := by
  obtain ⟨_, hvnot, hsmem, hkeep, hsub⟩ := merge_step_facts active ab a b hnd hA hB hab
  constructor
  · intro q hq
    rcases mergeMapStep_value_cases mm (victimRec a b) (survivorRec a b) q hq with
      hqs | ⟨⟨p, hpm, hq2⟩, hqv⟩
    · exact hqs ▸ hsmem
    · exact hkeep q.2 (hq2 ▸ hI1 p hpm) hqv
  · intro q hq hqmem
    rcases mergeMapStep_key_cases mm (victimRec a b) (survivorRec a b) q hq with
      hqv | ⟨p, hpm, hq1⟩
    · exact hvnot (hqv ▸ hqmem)
    · exact hI2 p hpm (hsub _ (hq1 ▸ hqmem))

theorem mergeMapStep_length (mm : List (String × String)) (v s : ColorUsage)
    (h : ∀ p ∈ mm, p.1 ≠ v.hex) :
    (mergeMapStep mm v s).length = mm.length + 1 := by
  unfold mergeMapStep
  rw [List.length_map, mapSet_length_of_no_key mm v.hex s.hex h]

theorem mergeLoop_invariants (t : Nat) (S : String → Prop) :
    ∀ (fuel : Nat) (active : List ColorUsage) (mm km : List (String × String))
      (out : List ColorUsage × List (String × String) × List (String × String)),
      (active.map ColorUsage.hex).Nodup →
      ValuesActive mm active → KeysRemoved mm active →
      (∀ x ∈ active.map ColorUsage.hex, S x) → (∀ p ∈ mm, S p.2) →
      mergeLoop t fuel active mm km = some out →
      ValuesActive out.2.1 out.1 ∧ KeysRemoved out.2.1 out.1 ∧
        (∀ p ∈ out.2.1, S p.2) := by
  intro fuel
  induction fuel with
  | zero =>
    intro active mm km out hnd hI1 hI2 hS hSmm hrun
    simp only [mergeLoop] at hrun
    split at hrun
    · obtain rfl := Option.some_inj.mp hrun
      exact ⟨hI1, hI2, hSmm⟩
    · cases hrun
  | succ fuel ih =>
    intro active mm km out hnd hI1 hI2 hS hSmm hrun
    simp only [mergeLoop] at hrun
    split at hrun
    · obtain rfl := Option.some_inj.mp hrun
      exact ⟨hI1, hI2, hSmm⟩
    · split at hrun
      · rename_i a b hA hB
        have hab : (findClosestPair active).1 ≠ (findClosestPair active).2 :=
          Nat.ne_of_lt (findClosestPair_fst_lt_snd active)
        obtain ⟨hnd2, _, _, _, hsub⟩ :=
          merge_step_facts active (findClosestPair active) a b hnd hA hB hab
        obtain ⟨hI1n, hI2n⟩ := mergeMapStep_invariants active (findClosestPair active)
          a b mm hnd hA hB hab hI1 hI2
        refine ih _ _ _ out hnd2 hI1n hI2n ?_ ?_ hrun
        · intro x hx
          exact hS x (hsub x hx)
        · intro p hp
          rcases mergeMapStep_value_cases mm (victimRec a b) (survivorRec a b) p hp with
            hps | ⟨⟨q, hqm, hq2⟩, _⟩
          · exact hps ▸ hS _ (get?_hex_mem (survivor_get active _ a b hA hB))
          · exact hq2 ▸ hSmm q hqm
      · cases hrun

theorem mergeLoop_total (t : Nat) (ht : 1 ≤ t) :
    ∀ (fuel : Nat) (active : List ColorUsage) (mm km : List (String × String)),
      active.length ≤ t + fuel →
      (active.map ColorUsage.hex).Nodup →
      ValuesActive mm active → KeysRemoved mm active →
      ∃ out, mergeLoop t fuel active mm km = some out ∧
        out.1.length = min active.length t ∧
        out.2.1.length = mm.length + (active.length - t) := by
  intro fuel
  induction fuel with
  | zero =>
    intro active mm km hfuel hnd hI1 hI2
    have hle : active.length ≤ t := by omega
    refine ⟨(active, mm, km), ?_, ?_, ?_⟩
    · simp [mergeLoop, hle]
    · simp only
      omega
    · simp only
      omega
  | succ fuel ih =>
    intro active mm km hfuel hnd hI1 hI2
    by_cases hle : active.length ≤ t
    · refine ⟨(active, mm, km), ?_, ?_, ?_⟩
      · simp [mergeLoop, hle]
      · simp only
        omega
      · simp only
        omega
    · have hlen2 : 2 ≤ active.length := by omega
      have hfst_lt_snd := findClosestPair_fst_lt_snd active
      have hsnd_lt : (findClosestPair active).2 < active.length := by
        rcases (findClosestPairState_snd_bounds active).2 with hb | hb
        · exact hb
        · unfold findClosestPair
          rw [hb]
          omega
      have hfst_lt : (findClosestPair active).1 < active.length := by omega
      obtain ⟨a, hA⟩ : ∃ a, active.get? (findClosestPair active).1 = some a :=
        ⟨_, List.get?_eq_get hfst_lt⟩
      obtain ⟨b, hB⟩ : ∃ b, active.get? (findClosestPair active).2 = some b :=
        ⟨_, List.get?_eq_get hsnd_lt⟩
      have hab : (findClosestPair active).1 ≠ (findClosestPair active).2 :=
        Nat.ne_of_lt hfst_lt_snd
      obtain ⟨hnd2, _, _, _, hsub⟩ :=
        merge_step_facts active (findClosestPair active) a b hnd hA hB hab
      obtain ⟨hI1n, hI2n⟩ := mergeMapStep_invariants active (findClosestPair active)
        a b mm hnd hA hB hab hI1 hI2
      have hlen_new : (mergeActive active (findClosestPair active) a b).length =
          active.length - 1 := mergeActive_length active _ a b hA hB
      have hmm_new : (mergeMapStep mm (victimRec a b) (survivorRec a b)).length =
          mm.length + 1 := by
        refine mergeMapStep_length mm _ _ ?_
        intro p hp hpv
        exact hI2 p hp (hpv ▸ get?_hex_mem (victim_get active _ a b hA hB))
      obtain ⟨out, hrun, hout1, hout2⟩ :=
        ih (mergeActive active (findClosestPair active) a b)
          (mergeMapStep mm (victimRec a b) (survivorRec a b))
          (mergeKeyStep mm km (victimRec a b) (survivorRec a b))
          (by omega) hnd2 hI1n hI2n
      refine ⟨out, ?_, ?_, ?_⟩
      · simp only [mergeLoop]
        rw [if_neg hle, hA, hB]
        exact hrun
      · rw [hout1, hlen_new]
        omega
      · rw [hout2, hmm_new, hlen_new]
        omega

/-- "No value of the losing-hex map is itself a key of that map." -/
def NoValueIsKey (m : List (String × String)) : Prop :=
  ∀ p ∈ m, ∀ q ∈ m, p.2 ≠ q.1

instance (m : List (String × String)) : Decidable (NoValueIsKey m) := by
  unfold NoValueIsKey
  infer_instance

/-- A usage list with two records carrying the same hex (the claim C3
quantification admits it): merging one into the other produces the map
entry "#0A0A0A" → "#0A0A0A", whose value is a key. -/
def usageDup : List ColorUsage :=
  [⟨"#0A0A0A", "K1", ⟨10, 10, 10⟩, 2⟩, ⟨"#0A0A0A", "K2", ⟨10, 10, 10⟩, 1⟩]

/-- Claim C3 is false as stated for arbitrary usage lists: on `usageDup`
(duplicate hexes) with target 1, the returned merge map is
[("#0A0A0A", "#0A0A0A")], whose value is itself a key. -/
theorem claim3_counterexample :
    (calculateMergePlan usageDup 1).map MergeResult.mergeMap =
      some [("#0A0A0A", "#0A0A0A")] ∧
    ¬ NoValueIsKey [("#0A0A0A", "#0A0A0A")] := ⟨by decide, by decide⟩

/-- Three-color usage list forcing the merge chain A→B then B→C
(A = "#000000" into B = "#020202", then B into C = "#646464"). -/
def usageChain : List ColorUsage :=
  [⟨"#000000", "KA", ⟨0, 0, 0⟩, 1⟩, ⟨"#020202", "KB", ⟨2, 2, 2⟩, 2⟩,
    ⟨"#646464", "KC", ⟨100, 100, 100⟩, 10⟩]

/-- Claim C3 (amended): for every usage list with pairwise-distinct hexes
and every target count, whenever `calculateMergePlan` returns, no value of
its losing-hex-to-surviving-hex map is itself a key of that map; in
particular, on the concrete chain A→B then B→C the final map sends both A
and B directly to C. -/
theorem claim3_amended_no_chains :
    (∀ (usage : List ColorUsage) (t : Nat) (r : MergeResult),
      (usage.map ColorUsage.hex).Nodup → calculateMergePlan usage t = some r →
      NoValueIsKey r.mergeMap) ∧
    (calculateMergePlan usageChain 1).map MergeResult.mergeMap =
      some [("#000000", "#646464"), ("#020202", "#646464")] := by
  constructor
  · intro usage t r hnd hplan
    unfold calculateMergePlan at hplan
    split at hplan
    · obtain rfl := Option.some_inj.mp hplan
      intro p hp
      simp at hp
    · cases hloop : mergeLoop t usage.length usage [] [] with
      | none =>
        rw [hloop] at hplan
        cases hplan
      | some out =>
        rw [hloop] at hplan
        simp only [Option.map_some'] at hplan
        obtain rfl := Option.some_inj.mp hplan
        obtain ⟨hI1, hI2, _⟩ := mergeLoop_invariants t (fun _ => True)
          usage.length usage [] [] out hnd
          (by intro p hp; simp at hp) (by intro p hp; simp at hp)
          (by intro x _; trivial) (by intro p hp; simp at hp) hloop
        intro p hp q hq heq
        exact hI2 q hq (heq ▸ hI1 p hp)
  · decide

theorem claim3_witness :
    (usage5.map ColorUsage.hex).Nodup ∧
    calculateMergePlan usage5 1 =
      some ⟨[("#010101", "#000000"), ("#FFFFFF", "#000000")],
        [("#010101", "K0"), ("#FFFFFF", "K0")], 2, 3, 1⟩ ∧
    NoValueIsKey [("#010101", "#000000"), ("#FFFFFF", "#000000")] :=
  ⟨by decide, by decide,
    claim3_amended_no_chains.1 usage5 1
      ⟨[("#010101", "#000000"), ("#FFFFFF", "#000000")],
        [("#010101", "K0"), ("#FFFFFF", "K0")], 2, 3, 1⟩
      (by decide) (by decide)⟩

/-- Two distinct colors for the target-0 crash fact of claim C10. -/
def usageCrash : List ColorUsage :=
  [⟨"#000000", "KA", ⟨0, 0, 0⟩, 1⟩, ⟨"#0A0A0A", "KB", ⟨10, 10, 10⟩, 1⟩]

/-- Claim C10: for every usage list with pairwise-distinct hexes and every
target count of at least 1, `calculateMergePlan` terminates without any
out-of-bounds access to the working set (the call returns a plan rather
than the `none` that models the JS TypeError) and reports
`colorsBefore = |usage|`, `colorsAfter = min |usage| target`,
`mergedCount = colorsBefore - colorsAfter`; moreover the target-at-least-1
hypothesis is required: with target 0 the concrete two-color list
`usageCrash` reaches the out-of-bounds read `active[1]` of a singleton and
crashes (`none`). -/
theorem claim10_counts_and_bounds (usage : List ColorUsage) (t : Nat)
    (ht : 1 ≤ t) (hnd : (usage.map ColorUsage.hex).Nodup) :
    (calculateMergePlan usage t).map
        (fun r => (r.colorsBefore, r.colorsAfter, r.mergedCount)) =
      some (usage.length, min usage.length t,
        usage.length - min usage.length t) ∧
    calculateMergePlan usageCrash 0 = none := by
  constructor
  · unfold calculateMergePlan
    split
    · rename_i hle
      have h1 : min usage.length t = usage.length := by omega
      rw [h1]
      simp
    · rename_i hgt
      obtain ⟨out, hrun, h1, h2⟩ := mergeLoop_total t ht usage.length usage [] []
        (by omega) hnd (by intro p hp; simp at hp) (by intro p hp; simp at hp)
      rw [hrun]
      simp only [Option.map_some']
      rw [h1, h2]
      have h3 : min usage.length t = t := by omega
      rw [h3]
      simp
  · decide

theorem claim10_witness :
    (1 : Nat) ≤ 1 ∧ (usage5.map ColorUsage.hex).Nodup ∧
    ((calculateMergePlan usage5 1).map
        (fun r => (r.colorsBefore, r.colorsAfter, r.mergedCount)) =
      some (usage5.length, min usage5.length 1,
        usage5.length - min usage5.length 1) ∧
    calculateMergePlan usageCrash 0 = none) :=
  ⟨by decide, by decide, claim10_counts_and_bounds usage5 1 (by decide) (by decide)⟩

theorem mergeCell_idem (mm km : List (String × String))
    (hfacts : ∀ p ∈ mm, (∀ q ∈ mm, p.2 ≠ q.1) ∧ toUpperStr p.2 = p.2)
    (c : MappedPixel) :
    mergeCell mm km (mergeCell mm km c) = mergeCell mm km c := by
  by_cases hskip : (c.isExternal.getD false = true ∨ c.key = TRANSPARENT_KEY)
  · have h1 : mergeCell mm km c = c := by
      unfold mergeCell
      rw [if_pos (by simpa using hskip)]
    rw [h1, h1]
  · cases hget : mapGet? mm (toUpperStr c.color) with
    | none =>
      have h1 : mergeCell mm km c = c := by
        unfold mergeCell
        rw [if_neg (by simpa using hskip), hget]
      rw [h1, h1]
    | some newHex =>
      by_cases hempty : newHex = ""
      · have h1 : mergeCell mm km c = c := by
          unfold mergeCell
          rw [if_neg (by simpa using hskip), hget]
          simp [hempty]
        rw [h1, h1]
      · have h1 : mergeCell mm km c =
            ⟨(mapGet? km (toUpperStr c.color)).getD c.key, newHex, some false⟩ := by
          unfold mergeCell
          rw [if_neg (by simpa using hskip), hget]
          simp [hempty]
        rw [h1]
        by_cases hk2 : (mapGet? km (toUpperStr c.color)).getD c.key = TRANSPARENT_KEY
        · unfold mergeCell
          rw [if_pos (by simp [hk2])]
        · have hentry : ∃ p ∈ mm, p.2 = newHex := by
            unfold mapGet? at hget
            cases hfind : mm.find? (fun p => p.1 = toUpperStr c.color) with
            | none =>
              rw [hfind] at hget
              cases hget
            | some p =>
              rw [hfind] at hget
              simp only [Option.map_some'] at hget
              exact ⟨p, List.mem_of_find?_eq_some hfind, Option.some_inj.mp hget⟩
          obtain ⟨p, hpmem, hpv⟩ := hentry
          obtain ⟨hnotkey, hupperv⟩ := hfacts p hpmem
          have hupperNew : toUpperStr newHex = newHex := by
            rw [← hpv]
            exact hupperv
          have hnone : mapGet? mm (toUpperStr newHex) = none := by
            rw [hupperNew]
            unfold mapGet?
            rw [List.find?_eq_none.mpr]
            · rfl
            · intro q hq
              simp only [decide_eq_true_eq]
              exact fun hqk => hnotkey q hq (hpv.symm ▸ hqk.symm ▸ rfl)
          unfold mergeCell
          rw [if_neg (by simp [hk2])]
          simp [hnone]

theorem applyColorMerge_idem (g : List (List MappedPixel))
    (mm km : List (String × String))
    (hfacts : ∀ p ∈ mm, (∀ q ∈ mm, p.2 ≠ q.1) ∧ toUpperStr p.2 = p.2) :
    applyColorMerge (applyColorMerge g mm km) mm km = applyColorMerge g mm km := by
  unfold applyColorMerge
  by_cases hmm : mm.length = 0
  · simp [hmm]
  · simp only [if_neg hmm]
    rw [List.map_map]
    congr 1
    funext row
    simp only [Function.comp_apply]
    rw [List.map_map]
    have hcc : mergeCell mm km ∘ mergeCell mm km = mergeCell mm km :=
      funext (mergeCell_idem mm km hfacts)
    rw [hcc]

/-- Claim C4: for every grid and every plan returned by
`calculateMergePlan` on a usage list with pairwise-distinct upper-case
hexes, applying `applyColorMerge` twice with that plan equals applying it
once (idempotence). -/
theorem claim4_apply_merge_idempotent (usage : List ColorUsage) (t : Nat)
    (g : List (List MappedPixel)) (r : MergeResult)
    (hnd : (usage.map ColorUsage.hex).Nodup)
    (hupper : ∀ h ∈ usage.map ColorUsage.hex, toUpperStr h = h)
    (hplan : calculateMergePlan usage t = some r) :
    applyColorMerge (applyColorMerge g r.mergeMap r.mergeKeyMap) r.mergeMap
        r.mergeKeyMap =
      applyColorMerge g r.mergeMap r.mergeKeyMap := by
  have hfacts : ∀ p ∈ r.mergeMap,
      (∀ q ∈ r.mergeMap, p.2 ≠ q.1) ∧ toUpperStr p.2 = p.2 := by
    unfold calculateMergePlan at hplan
    split at hplan
    · obtain rfl := Option.some_inj.mp hplan
      intro p hp
      simp at hp
    · cases hloop : mergeLoop t usage.length usage [] [] with
      | none =>
        rw [hloop] at hplan
        cases hplan
      | some out =>
        rw [hloop] at hplan
        simp only [Option.map_some'] at hplan
        obtain rfl := Option.some_inj.mp hplan
        obtain ⟨hI1, hI2, hSv⟩ := mergeLoop_invariants t
          (fun x => x ∈ usage.map ColorUsage.hex) usage.length usage [] [] out hnd
          (by intro p hp; simp at hp) (by intro p hp; simp at hp)
          (fun x hx => hx) (by intro p hp; simp at hp) hloop
        intro p hp
        exact ⟨fun q hq heq => hI2 q hq (heq ▸ hI1 p hp), hupper _ (hSv p hp)⟩
  exact applyColorMerge_idem g r.mergeMap r.mergeKeyMap hfacts

theorem claim4_witness :
    (usage5.map ColorUsage.hex).Nodup ∧
    (∀ h ∈ usage5.map ColorUsage.hex, toUpperStr h = h) ∧
    calculateMergePlan usage5 1 =
      some ⟨[("#010101", "#000000"), ("#FFFFFF", "#000000")],
        [("#010101", "K0"), ("#FFFFFF", "K0")], 2, 3, 1⟩ ∧
    applyColorMerge
        (applyColorMerge [[⟨"K1", "#010101", none⟩, ⟨"X", "#ABCDEF", none⟩]]
          [("#010101", "#000000"), ("#FFFFFF", "#000000")]
          [("#010101", "K0"), ("#FFFFFF", "K0")])
        [("#010101", "#000000"), ("#FFFFFF", "#000000")]
        [("#010101", "K0"), ("#FFFFFF", "K0")] =
      applyColorMerge [[⟨"K1", "#010101", none⟩, ⟨"X", "#ABCDEF", none⟩]]
        [("#010101", "#000000"), ("#FFFFFF", "#000000")]
        [("#010101", "K0"), ("#FFFFFF", "K0")] :=
  ⟨by decide, by decide, by decide,
    claim4_apply_merge_idempotent usage5 1
      [[⟨"K1", "#010101", none⟩, ⟨"X", "#ABCDEF", none⟩]]
      ⟨[("#010101", "#000000"), ("#FFFFFF", "#000000")],
        [("#010101", "K0"), ("#FFFFFF", "K0")], 2, 3, 1⟩
      (by decide) (by decide) (by decide)⟩

/-! ## Pixel grid editing (pixelEditing.ts) with row identities

A `Row` carries an allocation identity modelling the JS array reference:
operations that create a new row array (spread copies) allocate a fresh
id from a counter they thread through, while in-place cell writes keep
the id.  "Same underlying row reference" of the spec is id equality;
callers maintain the invariant that every live row id is below the
counter, so a freshly allocated row can never alias an input row. -/

structure GridDimensions where
  N : Nat
  M : Nat
deriving DecidableEq

structure Row where
  id : Nat
  cells : List MappedPixel
deriving DecidableEq

abbrev Grid := List Row

/-- `pixels.map((r) => r.map((c) => ({...c})))`: a fresh array per row
(ids σ, σ+1, ...); the copied cell objects are plain values here. -/
def deepCopyRows : Grid → Nat → Grid × Nat
  | [], σ => ([], σ)
  | r :: rest, σ =>
    ((⟨σ, r.cells⟩ : Row) :: (deepCopyRows rest (σ + 1)).1,
      (deepCopyRows rest (σ + 1)).2)

/-- `g[row]?.[col]` with possibly-negative JS indices. -/
def cellAtI? (g : Grid) (row col : Int) : Option MappedPixel :=
  if 0 ≤ row ∧ 0 ≤ col then
    match g.get? row.toNat with
    | none => none
    | some r => r.cells.get? col.toNat
  else none

/-- In-place write `g[row][col] = v`: keeps the row id.  (JS sparse
extension of a too-short row is not modelled; the claims only exercise
in-bounds cells.) -/
def setCell (g : Grid) (row col : Nat) (v : MappedPixel) : Grid :=
  match g.get? row with
  | none => g
  | some r => g.set row ⟨r.id, r.cells.set col v⟩

structure FillState where
  next : Grid
  visited : List (Nat × Nat)
  stack : List (Int × Int)

/-- Fuel for the flood-fill loops: each marking pushes 4 neighbours and at
most M·N cells can be marked, so `5·M·N + 2` pops always suffice;
exhaustion yields `none`, which never occurs at the inputs the theorems
evaluate. -/
def fillFuel (dims : GridDimensions) : Nat := 5 * dims.M * dims.N + 2

/-- The stack loop of `floodFill`: pop (the JS push order makes
`(row, col+1)` the next pop), skip out-of-bounds / visited / missing /
non-matching cells, otherwise write the fill value in place and push the
four neighbours.  `none` models the TypeError of `next[row][col]` when the
row array is missing. -/
def floodFillLoop (M N : Nat) (targetColor : String) (targetExternal : Bool)
    (fillValue : MappedPixel) : Nat → FillState → Option Grid
  | 0, _ => none
  | fuel + 1, s =>
    match s.stack with
    | [] => some s.next
    | (row, col) :: rest =>
      if row < 0 ∨ (M : Int) ≤ row ∨ col < 0 ∨ (N : Int) ≤ col ∨
          (row.toNat, col.toNat) ∈ s.visited then
        floodFillLoop M N targetColor targetExternal fillValue fuel
          { s with stack := rest }
      else
        match s.next.get? row.toNat with
        | none => none
        | some rowArr =>
          match rowArr.cells.get? col.toNat with
          | none =>
            floodFillLoop M N targetColor targetExternal fillValue fuel
              { s with stack := rest }
          | some cell =>
            if cell.color ≠ targetColor ∨
                cell.isExternal.getD false ≠ targetExternal then
              floodFillLoop M N targetColor targetExternal fillValue fuel
                { s with stack := rest }
            else
              floodFillLoop M N targetColor targetExternal fillValue fuel
                { next := setCell s.next row.toNat col.toNat fillValue,
                  visited := (row.toNat, col.toNat) :: s.visited,
                  stack := (row, col + 1) :: (row, col - 1) :: (row + 1, col) ::
                    (row - 1, col) :: rest }

/-- `floodFill` from pixelEditing.ts: no-op early returns when the start
cell is missing or the fill value already matches it; otherwise a deep
row copy followed by the stack loop. -/
def floodFill (pixels : Grid) (dims : GridDimensions) (startRow startCol : Int)
    (fillValue : MappedPixel) (σ : Nat) : Option (Grid × Nat) :=
  match cellAtI? pixels startRow startCol with
  | none => some (pixels, σ)
  | some startCell =>
    if fillValue.color = startCell.color ∧
        fillValue.isExternal.getD false = startCell.isExternal.getD false then
      some (pixels, σ)
    else
      (floodFillLoop dims.M dims.N startCell.color
          (startCell.isExternal.getD false) fillValue (fillFuel dims)
          ⟨(deepCopyRows pixels σ).1, [], [(startRow, startCol)]⟩).map
        (fun g => (g, (deepCopyRows pixels σ).2))

/-- The stack loop of `floodFillErase`: matches by key (skipping external
cells) and writes the transparent sentinel. -/
def floodFillEraseLoop (M N : Nat) (targetKey : String) :
    Nat → FillState → Option Grid
  | 0, _ => none
  | fuel + 1, s =>
    match s.stack with
    | [] => some s.next
    | (row, col) :: rest =>
      if row < 0 ∨ (M : Int) ≤ row ∨ col < 0 ∨ (N : Int) ≤ col ∨
          (row.toNat, col.toNat) ∈ s.visited then
        floodFillEraseLoop M N targetKey fuel { s with stack := rest }
      else
        match s.next.get? row.toNat with
        | none => none
        | some rowArr =>
          match rowArr.cells.get? col.toNat with
          | none => floodFillEraseLoop M N targetKey fuel { s with stack := rest }
          | some cell =>
            if cell.isExternal.getD false ∨ cell.key ≠ targetKey then
              floodFillEraseLoop M N targetKey fuel { s with stack := rest }
            else
              floodFillEraseLoop M N targetKey fuel
                { next := setCell s.next row.toNat col.toNat transparentPixel,
                  visited := (row.toNat, col.toNat) :: s.visited,
                  stack := (row, col + 1) :: (row, col - 1) :: (row + 1, col) ::
                    (row - 1, col) :: rest }

/-- `floodFillErase` from pixelEditing.ts: always deep-copies all rows
before the loop (it has no no-op early return). -/
def floodFillErase (pixels : Grid) (dims : GridDimensions)
    (startRow startCol : Int) (targetKey : String) (σ : Nat) :
    Option (Grid × Nat) :=
  (floodFillEraseLoop dims.M dims.N targetKey (fillFuel dims)
      ⟨(deepCopyRows pixels σ).1, [], [(startRow, startCol)]⟩).map
    (fun g => (g, (deepCopyRows pixels σ).2))

/-- `paintPixel`: `none` is the JS `null` "no change" sentinel (missing
cell, or cell already equal by key, color and external flag); otherwise
only the affected row is copied (fresh id) before the write. -/
def paintPixel (pixels : Grid) (row col : Int) (value : MappedPixel) (σ : Nat) :
    Option (Grid × Nat) :=
  match cellAtI? pixels row col with
  | none => none
  | some cell =>
    if cell.key = value.key ∧ cell.color = value.color ∧
        cell.isExternal = value.isExternal then
      none
    else
      match pixels.get? row.toNat with
      | none => none
      | some r =>
        some (pixels.set row.toNat ⟨σ, r.cells.set col.toNat value⟩, σ + 1)

structure PaintState where
  next : Grid
  copied : Bool
  rowsCopied : List Nat
  alloc : Nat

/-- The write path of `paintCells`: copy the outer array on first write
(row ids unchanged), copy the row being written on its first write (fresh
id), then write the cell in place.  `none` models the TypeError of
`[...next[row]]` on a missing row. -/
def paintWrite (pixels : Grid) (value : MappedPixel) (r c : Nat)
    (s : PaintState) : Option PaintState :=
  if r ∈ s.rowsCopied then
    some ⟨setCell (if s.copied then s.next else pixels) r c value, true,
      s.rowsCopied, s.alloc⟩
  else
    match (if s.copied then s.next else pixels).get? r with
    | none => none
    | some rowArr =>
      some ⟨setCell ((if s.copied then s.next else pixels).set r
          ⟨s.alloc, rowArr.cells⟩) r c value, true, r :: s.rowsCopied,
        s.alloc + 1⟩

/-- The cell loop of `paintCells`: skip out-of-bounds cells and cells whose
existing value (read through `(copied ? next : pixels)[row]?.[col]`)
already matches by key and color; write otherwise. -/
def paintCellsLoop (pixels : Grid) (N M : Nat) (value : MappedPixel) :
    List (Int × Int) → PaintState → Option PaintState
  | [], s => some s
  | (col, row) :: rest, s =>
    if row < 0 ∨ (M : Int) ≤ row ∨ col < 0 ∨ (N : Int) ≤ col then
      paintCellsLoop pixels N M value rest s
    else
      match ((if s.copied then s.next else pixels).get? row.toNat).bind
          (fun rw => rw.cells.get? col.toNat) with
      | some e =>
        if e.key = value.key ∧ e.color = value.color then
          paintCellsLoop pixels N M value rest s
        else
          match paintWrite pixels value row.toNat col.toNat s with
          | none => none
          | some s2 => paintCellsLoop pixels N M value rest s2
      | none =>
        match paintWrite pixels value row.toNat col.toNat s with
        | none => none
        | some s2 => paintCellsLoop pixels N M value rest s2

/-- `paintCells` from pixelEditing.ts; `cells` entries are `(col, row)`. -/
def paintCells (pixels : Grid) (dims : GridDimensions)
    (cells : List (Int × Int)) (value : MappedPixel) (σ : Nat) :
    Option (Grid × Nat) :=
  (paintCellsLoop pixels dims.N dims.M value cells ⟨pixels, false, [], σ⟩).map
    (fun s => (s.next, s.alloc))

theorem deepCopyRows_ids : ∀ (g : Grid) (σ : Nat),
    ∀ r ∈ (deepCopyRows g σ).1, σ ≤ r.id
  | [], _ => by intro r hr; simp [deepCopyRows] at hr
  | x :: rest, σ => by
    intro r hr
    simp only [deepCopyRows, List.mem_cons] at hr
    rcases hr with rfl | hr
    · exact Nat.le_refl σ
    · exact Nat.le_of_succ_le (deepCopyRows_ids rest (σ + 1) r hr)

theorem setCell_ids (g : Grid) (row col : Nat) (v : MappedPixel) :
    (setCell g row col v).map Row.id = g.map Row.id := by
  unfold setCell
  cases hg : g.get? row with
  | none => rfl
  | some r =>
    rw [List.map_set]
    exact list_set_self _ _ _ (by rw [List.get?_map, hg]; rfl)

theorem floodFillLoop_ids (M N : Nat) (tc : String) (te : Bool)
    (fv : MappedPixel) : ∀ (fuel : Nat) (s : FillState) (g : Grid),
      floodFillLoop M N tc te fv fuel s = some g →
      g.map Row.id = s.next.map Row.id := by
  intro fuel
  induction fuel with
  | zero =>
    intro s g h
    simp [floodFillLoop] at h
  | succ fuel ih =>
    intro s g h
    simp only [floodFillLoop] at h
    split at h
    · rw [Option.some_inj.mp h]
    · split at h
      · have hx := ih _ _ h
        exact hx
      · split at h
        · cases h
        · split at h
          · have hx := ih _ _ h
            exact hx
          · split at h
            · have hx := ih _ _ h
              exact hx
            · have hx := ih _ _ h
              rw [hx]
              exact setCell_ids _ _ _ _

theorem floodFillEraseLoop_ids (M N : Nat) (tk : String) :
    ∀ (fuel : Nat) (s : FillState) (g : Grid),
      floodFillEraseLoop M N tk fuel s = some g →
      g.map Row.id = s.next.map Row.id := by
  intro fuel
  induction fuel with
  | zero =>
    intro s g h
    simp [floodFillEraseLoop] at h
  | succ fuel ih =>
    intro s g h
    simp only [floodFillEraseLoop] at h
    split at h
    · rw [Option.some_inj.mp h]
    · split at h
      · have hx := ih _ _ h
        exact hx
      · split at h
        · cases h
        · split at h
          · have hx := ih _ _ h
            exact hx
          · split at h
            · have hx := ih _ _ h
              exact hx
            · have hx := ih _ _ h
              rw [hx]
              exact setCell_ids _ _ _ _

theorem grid_ids_fresh {pixels : Grid} {σ : Nat} {g : Grid}
    (hids : g.map Row.id = (deepCopyRows pixels σ).1.map Row.id) :
    ∀ r ∈ g, σ ≤ r.id := by
  intro r hr
  have hmem : r.id ∈ g.map Row.id := List.mem_map_of_mem Row.id hr
  rw [hids] at hmem
  obtain ⟨r2, hr2, hr2id⟩ := List.mem_map.mp hmem
  exact hr2id ▸ deepCopyRows_ids pixels σ r2 hr2

/-- Claim C2 (amended): `floodFill` and `floodFillErase` do not share rows
with the input: apart from `floodFill`'s no-op early returns (missing
start cell, or fill value equal to the start cell), every row of the
returned grid is freshly allocated and is not the same underlying row
reference as any input row, even when none of its cells changed.
(`floodFillErase` has no no-op path and always returns fresh rows.) -/
theorem claim2_amended_no_row_sharing :
    (∀ (pixels : Grid) (dims : GridDimensions) (startRow startCol : Int)
      (fillValue : MappedPixel) (σ : Nat) (g : Grid) (σ2 : Nat),
      (∀ r ∈ pixels, r.id < σ) →
      floodFill pixels dims startRow startCol fillValue σ = some (g, σ2) →
      g = pixels ∨ ∀ r ∈ g, ∀ r2 ∈ pixels, r.id ≠ r2.id) ∧
    (∀ (pixels : Grid) (dims : GridDimensions) (startRow startCol : Int)
      (targetKey : String) (σ : Nat) (g : Grid) (σ2 : Nat),
      (∀ r ∈ pixels, r.id < σ) →
      floodFillErase pixels dims startRow startCol targetKey σ = some (g, σ2) →
      ∀ r ∈ g, ∀ r2 ∈ pixels, r.id ≠ r2.id) := by
  constructor
  · intro pixels dims startRow startCol fillValue σ g σ2 hσ hrun
    unfold floodFill at hrun
    split at hrun
    · left
      exact (congrArg Prod.fst (Option.some_inj.mp hrun)).symm
    · split at hrun
      · left
        exact (congrArg Prod.fst (Option.some_inj.mp hrun)).symm
      · right
        cases hloop : floodFillLoop dims.M dims.N _ _ fillValue (fillFuel dims)
            ⟨(deepCopyRows pixels σ).1, [], [(startRow, startCol)]⟩ with
        | none =>
          rw [hloop] at hrun
          cases hrun
        | some g0 =>
          rw [hloop] at hrun
          simp only [Option.map_some'] at hrun
          have hg : g0 = g := congrArg Prod.fst (Option.some_inj.mp hrun)
          subst hg
          have hfresh := grid_ids_fresh
            (floodFillLoop_ids dims.M dims.N _ _ fillValue (fillFuel dims) _ _ hloop)
          intro r hr r2 hr2
          have h1 := hfresh r hr
          have h2 := hσ r2 hr2
          omega
  · intro pixels dims startRow startCol targetKey σ g σ2 hσ hrun
    unfold floodFillErase at hrun
    cases hloop : floodFillEraseLoop dims.M dims.N targetKey (fillFuel dims)
        ⟨(deepCopyRows pixels σ).1, [], [(startRow, startCol)]⟩ with
    | none =>
      rw [hloop] at hrun
      cases hrun
    | some g0 =>
      rw [hloop] at hrun
      simp only [Option.map_some'] at hrun
      have hg : g0 = g := congrArg Prod.fst (Option.some_inj.mp hrun)
      subst hg
      have hfresh := grid_ids_fresh
        (floodFillEraseLoop_ids dims.M dims.N targetKey (fillFuel dims) _ _ hloop)
      intro r hr r2 hr2
      have h1 := hfresh r hr
      have h2 := hσ r2 hr2
      omega

/-- A 2×2 grid whose top row is color "#111111" and bottom row "#222222";
row ids 0 and 1, allocation counter 2. -/
def fillDemoGrid : Grid :=
  [⟨0, [⟨"X", "#111111", none⟩, ⟨"X", "#111111", none⟩]⟩,
    ⟨1, [⟨"Y", "#222222", none⟩, ⟨"Y", "#222222", none⟩]⟩]

/-- Claim C2 is false as stated: flood-filling the top row of
`fillDemoGrid` with a new color changes no cell of row 1 (its cells are
still the "#222222" pair), yet the returned grid's row 1 is a fresh
allocation (id 3), not the input row reference (id 1) — `floodFill`
deep-copies every row before the loop. -/
theorem claim2_counterexample :
    (floodFill fillDemoGrid ⟨2, 2⟩ 0 0 ⟨"Z", "#333333", none⟩ 2).map
        (fun p => p.1.get? 1) =
      some (some ⟨3, [⟨"Y", "#222222", none⟩, ⟨"Y", "#222222", none⟩]⟩) ∧
    fillDemoGrid.get? 1 =
      some ⟨1, [⟨"Y", "#222222", none⟩, ⟨"Y", "#222222", none⟩]⟩ ∧
    (⟨3, [⟨"Y", "#222222", none⟩, ⟨"Y", "#222222", none⟩]⟩ : Row) ≠
      ⟨1, [⟨"Y", "#222222", none⟩, ⟨"Y", "#222222", none⟩]⟩ :=
  ⟨by decide, by decide, by decide⟩

/-- The concrete outputs of the two flood operations on `fillDemoGrid`. -/
def fillDemoResult : Grid :=
  [⟨2, [⟨"Z", "#333333", none⟩, ⟨"Z", "#333333", none⟩]⟩,
    ⟨3, [⟨"Y", "#222222", none⟩, ⟨"Y", "#222222", none⟩]⟩]

def eraseDemoResult : Grid :=
  [⟨2, [transparentPixel, transparentPixel]⟩,
    ⟨3, [⟨"Y", "#222222", none⟩, ⟨"Y", "#222222", none⟩]⟩]

theorem claim2_witness :
    (∀ r ∈ fillDemoGrid, r.id < 2) ∧
    (fillDemoResult = fillDemoGrid ∨
      ∀ r ∈ fillDemoResult, ∀ r2 ∈ fillDemoGrid, r.id ≠ r2.id) ∧
    (∀ r ∈ eraseDemoResult, ∀ r2 ∈ fillDemoGrid, r.id ≠ r2.id) :=
  ⟨by decide,
    claim2_amended_no_row_sharing.1 fillDemoGrid ⟨2, 2⟩ 0 0
      ⟨"Z", "#333333", none⟩ 2 fillDemoResult 4 (by decide) (by decide),
    claim2_amended_no_row_sharing.2 fillDemoGrid ⟨2, 2⟩ 0 0 ("X") 2
      eraseDemoResult 4 (by decide) (by decide)⟩

theorem setCell_get?_ne (g : Grid) (r c : Nat) (v : MappedPixel) (j : Nat)
    (h : j ≠ r) : (setCell g r c v).get? j = g.get? j := by
  unfold setCell
  cases hg : g.get? r with
  | none => rfl
  | some rowArr => exact List.get?_set_ne _ _ (Ne.symm h)

theorem paintPixel_frame (pixels : Grid) (row col : Int) (value : MappedPixel)
    (σ : Nat) (g : Grid) (σ2 : Nat)
    (h : paintPixel pixels row col value σ = some (g, σ2)) :
    ∀ j, j ≠ row.toNat → g.get? j = pixels.get? j := by
  unfold paintPixel at h
  split at h
  · cases h
  · split at h
    · cases h
    · split at h
      · cases h
      · intro j hj
        have hx := Option.some_inj.mp h
        have hg : _ = g := congrArg Prod.fst hx
        rw [← hg]
        exact List.get?_set_ne _ _ (Ne.symm hj)

/-- The premise of claim C7 for `paintCells`: every in-bounds candidate
cell whose existing value in the input grid does not already match the
fill value (by key and color) lies in row R. -/
def CellsOnlyRow (pixels : Grid) (N M : Nat) (value : MappedPixel)
    (cells : List (Int × Int)) (R : Nat) : Prop :=
  ∀ p ∈ cells, ¬(p.2 < 0 ∨ (M : Int) ≤ p.2 ∨ p.1 < 0 ∨ (N : Int) ≤ p.1) →
    p.2.toNat = R ∨
      ∃ e, (pixels.get? p.2.toNat).bind (fun rw => rw.cells.get? p.1.toNat) =
          some e ∧ e.key = value.key ∧ e.color = value.color

theorem paintWrite_frame (pixels : Grid) (value : MappedPixel) (r c : Nat)
    (s s2 : PaintState) (R : Nat) (hr : r = R)
    (hinv : ∀ j, j ≠ R → s.next.get? j = pixels.get? j)
    (hw : paintWrite pixels value r c s = some s2) :
    ∀ j, j ≠ R → s2.next.get? j = pixels.get? j := by
  subst hr
  intro j hj
  have hbase : (if s.copied then s.next else pixels).get? j = pixels.get? j := by
    cases hc : s.copied
    · simp
    · simpa using hinv j hj
  unfold paintWrite at hw
  split at hw
  · have hx := Option.some_inj.mp hw
    have hnext : s2.next =
        setCell (if s.copied then s.next else pixels) r c value := by
      rw [← hx]
    rw [hnext, setCell_get?_ne _ _ _ _ _ hj]
    exact hbase
  · split at hw
    · cases hw
    · rename_i rowArr hrowArr
      have hx := Option.some_inj.mp hw
      have hnext : s2.next =
          setCell ((if s.copied then s.next else pixels).set r
            ⟨s.alloc, rowArr.cells⟩) r c value := by
        rw [← hx]
      rw [hnext, setCell_get?_ne _ _ _ _ _ hj,
        List.get?_set_ne _ _ (Ne.symm hj)]
      exact hbase

theorem paintCellsLoop_frame (pixels : Grid) (N M : Nat) (value : MappedPixel)
    (R : Nat) : ∀ (cells : List (Int × Int)) (s s2 : PaintState),
      (∀ j, j ≠ R → s.next.get? j = pixels.get? j) →
      CellsOnlyRow pixels N M value cells R →
      paintCellsLoop pixels N M value cells s = some s2 →
      ∀ j, j ≠ R → s2.next.get? j = pixels.get? j := by
  intro cells
  induction cells with
  | nil =>
    intro s s2 hinv _ hrun
    simp only [paintCellsLoop] at hrun
    rw [← Option.some_inj.mp hrun]
    exact hinv
  | cons c rest ih =>
    intro s s2 hinv honly hrun
    obtain ⟨col, row⟩ := c
    have htail : CellsOnlyRow pixels N M value rest R := by
      intro p hp hb
      exact honly p (List.mem_cons_of_mem _ hp) hb
    simp only [paintCellsLoop] at hrun
    split at hrun
    · exact ih s s2 hinv htail hrun
    · rename_i hbounds
      have hhead := honly (col, row) (List.mem_cons_self _ _) hbounds
      split at hrun
      · rename_i e hexist
        split at hrun
        · exact ih s s2 hinv htail hrun
        · rename_i hne
          split at hrun
          · cases hrun
          · rename_i s3 hw
            have hR : (row : Int).toNat = R := by
              by_contra hRne
              rcases hhead with h | ⟨e2, he2, hek, hec⟩
              · exact hRne h
              · have hread : ((if s.copied then s.next else pixels).get?
                    (row : Int).toNat).bind (fun rw => rw.cells.get? (col : Int).toNat) =
                    (pixels.get? (row : Int).toNat).bind
                      (fun rw => rw.cells.get? (col : Int).toNat) := by
                  cases hc : s.copied
                  · simp
                  · simp only [hc, if_true]
                    rw [hinv _ hRne]
                rw [hread, he2] at hexist
                obtain rfl := Option.some_inj.mp hexist
                exact hne ⟨hek, hec⟩
            have hinv3 := paintWrite_frame pixels value _ _ s s3 R hR hinv hw
            exact ih s3 s2 hinv3 htail hrun
      · rename_i hexist
        split at hrun
        · cases hrun
        · rename_i s3 hw
          have hR : (row : Int).toNat = R := by
            by_contra hRne
            rcases hhead with h | ⟨e2, he2, _, _⟩
            · exact hRne h
            · have hread : ((if s.copied then s.next else pixels).get?
                  (row : Int).toNat).bind (fun rw => rw.cells.get? (col : Int).toNat) =
                  (pixels.get? (row : Int).toNat).bind
                    (fun rw => rw.cells.get? (col : Int).toNat) := by
                cases hc : s.copied
                · simp
                · simp only [hc, if_true]
                  rw [hinv _ hRne]
              rw [hread, he2] at hexist
              cases hexist
          have hinv3 := paintWrite_frame pixels value _ _ s s3 R hR hinv hw
          exact ih s3 s2 hinv3 htail hrun

/-- Claim C7: for every single-cell paint and every multi-cell paint whose
changed cells all lie in one row R, every row other than R of the returned
grid is the same underlying row reference (same `Row`, id included) as in
the input grid. -/
theorem claim7_paint_structural_sharing :
    (∀ (pixels : Grid) (row col : Int) (value : MappedPixel) (σ : Nat)
      (g : Grid) (σ2 : Nat),
      paintPixel pixels row col value σ = some (g, σ2) →
      ∀ j, j ≠ row.toNat → g.get? j = pixels.get? j) ∧
    (∀ (pixels : Grid) (dims : GridDimensions) (cells : List (Int × Int))
      (value : MappedPixel) (σ : Nat) (R : Nat) (g : Grid) (σ2 : Nat),
      CellsOnlyRow pixels dims.N dims.M value cells R →
      paintCells pixels dims cells value σ = some (g, σ2) →
      ∀ j, j ≠ R → g.get? j = pixels.get? j) := by
  constructor
  · exact paintPixel_frame
  · intro pixels dims cells value σ R g σ2 honly hrun
    unfold paintCells at hrun
    cases hloop : paintCellsLoop pixels dims.N dims.M value cells
        ⟨pixels, false, [], σ⟩ with
    | none =>
      rw [hloop] at hrun
      cases hrun
    | some sEnd =>
      rw [hloop] at hrun
      simp only [Option.map_some'] at hrun
      have hg : sEnd.next = g := congrArg Prod.fst (Option.some_inj.mp hrun)
      intro j hj
      rw [← hg]
      exact paintCellsLoop_frame pixels dims.N dims.M value R cells
        ⟨pixels, false, [], σ⟩ sEnd (fun _ _ => rfl) honly hloop j hj

def paintDemoPixelResult : Grid :=
  [⟨2, [⟨"Z", "#333333", none⟩, ⟨"X", "#111111", none⟩]⟩,
    ⟨1, [⟨"Y", "#222222", none⟩, ⟨"Y", "#222222", none⟩]⟩]

def paintDemoCellsResult : Grid :=
  [⟨2, [⟨"Z", "#333333", none⟩, ⟨"Z", "#333333", none⟩]⟩,
    ⟨1, [⟨"Y", "#222222", none⟩, ⟨"Y", "#222222", none⟩]⟩]

theorem claim7_witness :
    paintDemoPixelResult.get? 1 = fillDemoGrid.get? 1 ∧
    CellsOnlyRow fillDemoGrid 2 2 ⟨"Z", "#333333", none⟩ [(0, 0), (1, 0)] 0 ∧
    paintDemoCellsResult.get? 1 = fillDemoGrid.get? 1 :=
  ⟨claim7_paint_structural_sharing.1 fillDemoGrid 0 0 ⟨"Z", "#333333", none⟩ 2
      paintDemoPixelResult 3 (by decide) 1 (by decide),
    (by
      intro p hp hb
      rcases List.mem_cons.mp hp with rfl | hp2
      · left
        rfl
      · rcases List.mem_cons.mp hp2 with rfl | hp3
        · left
          rfl
        · cases hp3),
    claim7_paint_structural_sharing.2 fillDemoGrid ⟨2, 2⟩ [(0, 0), (1, 0)]
      ⟨"Z", "#333333", none⟩ 2 0 paintDemoCellsResult 3
      (by
        intro p hp hb
        rcases List.mem_cons.mp hp with rfl | hp2
        · left
          rfl
        · rcases List.mem_cons.mp hp2 with rfl | hp3
          · left
            rfl
          · cases hp3)
      (by decide) 1 (by decide)⟩

/-! ## Pixelation sampler (calculatePixelGrid, pixelation.ts) -/

/-- The RGBA8 source buffer: `data i` is byte i of `imageData.data`.
(Reads beyond the buffer do not occur for consistent arguments; the total
function stands in for the typed array.) -/
structure ImageData where
  width : Nat
  data : Nat → Nat

inductive PixelationMode where
  | dominant
  | average
deriving DecidableEq

/-- The source rectangle of target cell (i, j): floor of `i·(W/N)` for the
start, clamped ceiling of `(i+1)·(W/N)` for the end, extent forced to at
least 1.  The float arithmetic of the source is modelled exactly over the
rationals: `⌊i·W/N⌋ = i·W/N` and `⌈a/N⌉ = (a+N-1)/N` in natural-number
division. -/
structure CellRect where
  sx : Nat
  sy : Nat
  w : Nat
  h : Nat
deriving DecidableEq

def cellRect (imgWidth imgHeight N M i j : Nat) : CellRect :=
  ⟨i * imgWidth / N, j * imgHeight / M,
    max 1 (min imgWidth (((i + 1) * imgWidth + (N - 1)) / N) - i * imgWidth / N),
    max 1 (min imgHeight (((j + 1) * imgHeight + (M - 1)) / M) - j * imgHeight / M)⟩

/-- The pixels of a cell rectangle, in the scan order of
`cellRepresentativeColor` (y outer, x inner). -/
def cellPixels (sx sy w h : Nat) : List (Nat × Nat) :=
  (List.range h).flatMap fun dy => (List.range w).map fun dx => (sx + dx, sy + dy)

structure RepState where
  rSum : Nat
  gSum : Nat
  bSum : Nat
  count : Nat
  freq : List (RgbColor × Nat)
  domRgb : Option RgbColor
  maxFreq : Nat
deriving DecidableEq

/-- `freqMap[k] = (freqMap[k] || 0) + 1`, keyed by the exact RGB triple
(the source keys by the string `r,g,b`, a bijective encoding). -/
def freqBump (freq : List (RgbColor × Nat)) (c : RgbColor) : List (RgbColor × Nat) :=
  if freq.any (fun p => p.1 = c) then
    freq.map fun p => if p.1 = c then (p.1, p.2 + 1) else p
  else freq ++ [(c, 1)]

def freqGet (freq : List (RgbColor × Nat)) (c : RgbColor) : Nat :=
  ((freq.find? (fun p => p.1 = c)).map (fun p => p.2)).getD 0

/-- One pixel of `cellRepresentativeColor`'s loop: skip alpha < 128,
otherwise count it and either accumulate channel sums (average mode) or
bump the frequency map and track the running dominant triple. -/
def repStep (img : ImageData) (mode : PixelationMode) (st : RepState)
    (p : Nat × Nat) : RepState :=
  if img.data ((p.2 * img.width + p.1) * 4 + 3) < 128 then st
  else
    match mode with
    | .average =>
      { st with
        count := st.count + 1
        rSum := st.rSum + img.data ((p.2 * img.width + p.1) * 4)
        gSum := st.gSum + img.data ((p.2 * img.width + p.1) * 4 + 1)
        bSum := st.bSum + img.data ((p.2 * img.width + p.1) * 4 + 2) }
    | .dominant =>
      if st.maxFreq < freqGet (freqBump st.freq ⟨img.data ((p.2 * img.width + p.1) * 4),
          img.data ((p.2 * img.width + p.1) * 4 + 1),
          img.data ((p.2 * img.width + p.1) * 4 + 2)⟩)
          ⟨img.data ((p.2 * img.width + p.1) * 4),
            img.data ((p.2 * img.width + p.1) * 4 + 1),
            img.data ((p.2 * img.width + p.1) * 4 + 2)⟩ then
        { st with
          count := st.count + 1
          freq := freqBump st.freq ⟨img.data ((p.2 * img.width + p.1) * 4),
            img.data ((p.2 * img.width + p.1) * 4 + 1),
            img.data ((p.2 * img.width + p.1) * 4 + 2)⟩
          domRgb := some ⟨img.data ((p.2 * img.width + p.1) * 4),
            img.data ((p.2 * img.width + p.1) * 4 + 1),
            img.data ((p.2 * img.width + p.1) * 4 + 2)⟩
          maxFreq := freqGet (freqBump st.freq ⟨img.data ((p.2 * img.width + p.1) * 4),
            img.data ((p.2 * img.width + p.1) * 4 + 1),
            img.data ((p.2 * img.width + p.1) * 4 + 2)⟩)
            ⟨img.data ((p.2 * img.width + p.1) * 4),
              img.data ((p.2 * img.width + p.1) * 4 + 1),
              img.data ((p.2 * img.width + p.1) * 4 + 2)⟩ }
      else
        { st with
          count := st.count + 1
          freq := freqBump st.freq ⟨img.data ((p.2 * img.width + p.1) * 4),
            img.data ((p.2 * img.width + p.1) * 4 + 1),
            img.data ((p.2 * img.width + p.1) * 4 + 2)⟩ }

/-- `Math.round(sum / count)` in exact arithmetic:
`⌊sum/count + 1/2⌋ = (2·sum + count) / (2·count)`. -/
def jsRoundDiv (sum count : Nat) : Nat := (2 * sum + count) / (2 * count)

/-- `cellRepresentativeColor` from pixelation.ts: `none` iff no pixel of
the rectangle is opaque (the single loop state is written out at each
use site). -/
def cellRepresentativeColor (img : ImageData) (sx sy w h : Nat)
    (mode : PixelationMode) : Option RgbColor :=
  if ((cellPixels sx sy w h).foldl (repStep img mode)
      ⟨0, 0, 0, 0, [], none, 0⟩).count = 0 then
    none
  else
    match mode with
    | .average =>
      some ⟨jsRoundDiv ((cellPixels sx sy w h).foldl (repStep img mode)
            ⟨0, 0, 0, 0, [], none, 0⟩).rSum
          ((cellPixels sx sy w h).foldl (repStep img mode)
            ⟨0, 0, 0, 0, [], none, 0⟩).count,
        jsRoundDiv ((cellPixels sx sy w h).foldl (repStep img mode)
            ⟨0, 0, 0, 0, [], none, 0⟩).gSum
          ((cellPixels sx sy w h).foldl (repStep img mode)
            ⟨0, 0, 0, 0, [], none, 0⟩).count,
        jsRoundDiv ((cellPixels sx sy w h).foldl (repStep img mode)
            ⟨0, 0, 0, 0, [], none, 0⟩).bSum
          ((cellPixels sx sy w h).foldl (repStep img mode)
            ⟨0, 0, 0, 0, [], none, 0⟩).count⟩
    | .dominant =>
      ((cellPixels sx sy w h).foldl (repStep img mode)
        ⟨0, 0, 0, 0, [], none, 0⟩).domRgb

/-- `calculatePixelGrid` from pixelation.ts.  The initial fallback-filled
grid is completely overwritten by the double loop (every (j, i) with
j < M, i < N is assigned), each cell becoming the fast nearest-palette
entry (no `isExternal` field, i.e. `none`) or, when the cell's source
rectangle contains no opaque pixel, a copy of `transparentPixel`. -/
def calculatePixelGrid (img : ImageData) (imgWidth imgHeight N M : Nat)
    (palette : List PaletteColor) (mode : PixelationMode)
    (fallback : PaletteColor) : List (List MappedPixel) :=
  (List.range M).map fun j =>
    (List.range N).map fun i =>
      match cellRepresentativeColor img (cellRect imgWidth imgHeight N M i j).sx
          (cellRect imgWidth imgHeight N M i j).sy
          (cellRect imgWidth imgHeight N M i j).w
          (cellRect imgWidth imgHeight N M i j).h mode with
      | some rgb =>
        ⟨(findClosestPaletteColorFast rgb palette).key,
          (findClosestPaletteColorFast rgb palette).hex, none⟩
      | none => transparentPixel

/-- `grid[j]?.[i]` on nested lists. -/
def gridCell? {α : Type _} (g : List (List α)) (j i : Nat) : Option α :=
  (g.get? j).bind fun row => row.get? i

theorem get?_range_map {β : Type _} (f : Nat → β) (n i : Nat) (h : i < n) :
    ((List.range n).map f).get? i = some (f i) := by
  rw [List.get?_eq_getElem?, List.getElem?_map, List.getElem?_range h]
  rfl

theorem foldl_skip {α β : Type _} (f : β → α → β) :
    ∀ (l : List α) (b : β), (∀ x ∈ l, ∀ st, f st x = st) → l.foldl f b = b
  | [], _, _ => rfl
  | x :: t, b, h => by
    simp only [List.foldl_cons, h x (by simp) b]
    exact foldl_skip f t b (fun y hy st => h y (by simp [hy]) st)

theorem mem_cellPixels (sx sy w h : Nat) (p : Nat × Nat)
    (hp : p ∈ cellPixels sx sy w h) :
    sx ≤ p.1 ∧ p.1 < sx + w ∧ sy ≤ p.2 ∧ p.2 < sy + h := by
  unfold cellPixels at hp
  obtain ⟨dy, hdy, hmap⟩ := List.mem_flatMap.mp hp
  obtain ⟨dx, hdx, hpe⟩ := List.mem_map.mp hmap
  have h1 := List.mem_range.mp hdy
  have h2 := List.mem_range.mp hdx
  subst hpe
  refine ⟨?_, ?_, ?_, ?_⟩ <;> simp <;> omega

/-- Claim C6: for every source image, dimensions, palette, sampling mode
and fallback, `calculatePixelGrid` returns exactly M rows of exactly N
cells (every cell set), and every cell whose source rectangle contains
only pixels of alpha below 128 is the transparent sentinel cell
(`transparentPixel`: key "ERASE", isExternal true), not the fallback. -/
theorem claim6_pixel_grid_shape_and_transparency (img : ImageData)
    (imgWidth imgHeight N M : Nat) (palette : List PaletteColor)
    (mode : PixelationMode) (fallback : PaletteColor) :
    (calculatePixelGrid img imgWidth imgHeight N M palette mode fallback).length = M ∧
    (∀ row ∈ calculatePixelGrid img imgWidth imgHeight N M palette mode fallback,
      row.length = N) ∧
    (∀ j i, j < M → i < N →
      (∀ x y, (cellRect imgWidth imgHeight N M i j).sx ≤ x →
        x < (cellRect imgWidth imgHeight N M i j).sx +
          (cellRect imgWidth imgHeight N M i j).w →
        (cellRect imgWidth imgHeight N M i j).sy ≤ y →
        y < (cellRect imgWidth imgHeight N M i j).sy +
          (cellRect imgWidth imgHeight N M i j).h →
        img.data ((y * img.width + x) * 4 + 3) < 128) →
      gridCell? (calculatePixelGrid img imgWidth imgHeight N M palette mode fallback)
          j i = some transparentPixel) := by
  refine ⟨by simp [calculatePixelGrid], ?_, ?_⟩
  · intro row hrow
    unfold calculatePixelGrid at hrow
    obtain ⟨j, _, rfl⟩ := List.mem_map.mp hrow
    simp
  · intro j i hj hi htrans
    unfold gridCell? calculatePixelGrid
    rw [get?_range_map _ _ _ hj]
    have hbind : ∀ (x : List MappedPixel) (f : List MappedPixel → Option MappedPixel),
        (some x).bind f = f x := fun _ _ => rfl
    rw [hbind, get?_range_map _ _ _ hi]
    have hnone : cellRepresentativeColor img (cellRect imgWidth imgHeight N M i j).sx
        (cellRect imgWidth imgHeight N M i j).sy
        (cellRect imgWidth imgHeight N M i j).w
        (cellRect imgWidth imgHeight N M i j).h mode = none := by
      unfold cellRepresentativeColor
      have hfold : (cellPixels (cellRect imgWidth imgHeight N M i j).sx
          (cellRect imgWidth imgHeight N M i j).sy
          (cellRect imgWidth imgHeight N M i j).w
          (cellRect imgWidth imgHeight N M i j).h).foldl (repStep img mode)
          ⟨0, 0, 0, 0, [], none, 0⟩ = ⟨0, 0, 0, 0, [], none, 0⟩ := by
        apply foldl_skip
        intro p hp st
        obtain ⟨h1, h2, h3, h4⟩ := mem_cellPixels _ _ _ _ p hp
        unfold repStep
        rw [if_pos (htrans p.1 p.2 h1 h2 h3 h4)]
      rw [hfold]
      simp
    rw [hnone]

theorem claim6_witness :
    (0 : Nat) < 1 ∧
    gridCell? (calculatePixelGrid ⟨1, fun _ => 0⟩ 1 1 1 1 demoRedBlue
        PixelationMode.dominant ⟨"A", "#FF0000", ⟨255, 0, 0⟩⟩) 0 0 =
      some transparentPixel :=
  ⟨by decide,
    (claim6_pixel_grid_shape_and_transparency ⟨1, fun _ => 0⟩ 1 1 1 1 demoRedBlue
        PixelationMode.dominant ⟨"A", "#FF0000", ⟨255, 0, 0⟩⟩).2.2 0 0
      (by decide) (by decide) (fun x y h1 h2 h3 h4 => Nat.succ_pos 127)⟩

/-! ## Dithering engine (dithering.ts)

The Float32 error buffers are modelled by exact rationals (Float32
rounding of accumulated error is not modelled; the claim proved here
concerns transparent cells, which neither read nor write error). -/

/-- Placeholder for the JS `undefined` that `palette[0]` yields on an
empty palette; the claims only use non-empty palettes. -/
def undefinedPaletteColor : PaletteColor := ⟨"undefined", "undefined", ⟨0, 0, 0⟩⟩

/-- `Math.round` on exact rationals: JS rounds half toward +∞. -/
def jsRound (q : ℚ) : Int := Int.floor (q + 1 / 2)

/-- `Math.max(0, Math.min(255, Math.round(x)))`. -/
def clampRound255 (q : ℚ) : Nat := (max 0 (min 255 (jsRound q))).toNat

def errGet (buf : List ℚ) (i : Nat) : ℚ := buf.getD i 0

def errAdd (buf : List ℚ) (i : Nat) (v : ℚ) : List ℚ :=
  buf.set i (errGet buf i + v)

/-- One row of `floydSteinbergDither`: fold over x with state
(result row, current-row error buffer, next-row error buffer); the error
kernel is 7/16 right, 3/16 below-left, 5/16 below, 1/16 below-right,
scaled by `strength`; transparent pixels are skipped entirely. -/
def fsRow (img : ImageData) (width height : Nat) (palette : List PaletteColor)
    (strength : ℚ) (y : Nat) (row0 : List PaletteColor)
    (currErr nextErr : List ℚ) :
    List PaletteColor × List ℚ × List ℚ :=
  (List.range width).foldl
    (fun st x =>
      if img.data ((y * width + x) * 4 + 3) < 128 then st
      else
        let oldR : ℚ := (img.data ((y * width + x) * 4) : ℚ) + errGet st.2.1 (x * 4)
        let oldG : ℚ := (img.data ((y * width + x) * 4 + 1) : ℚ) +
          errGet st.2.1 (x * 4 + 1)
        let oldB : ℚ := (img.data ((y * width + x) * 4 + 2) : ℚ) +
          errGet st.2.1 (x * 4 + 2)
        let closest := findClosestPaletteColorFast
          ⟨clampRound255 oldR, clampRound255 oldG, clampRound255 oldB⟩ palette
        let errR := (oldR - (closest.rgb.r : ℚ)) * strength
        let errG := (oldG - (closest.rgb.g : ℚ)) * strength
        let errB := (oldB - (closest.rgb.b : ℚ)) * strength
        let cur1 := if x + 1 < width then
            errAdd (errAdd (errAdd st.2.1 ((x + 1) * 4) (errR * (7 / 16)))
              ((x + 1) * 4 + 1) (errG * (7 / 16))) ((x + 1) * 4 + 2) (errB * (7 / 16))
          else st.2.1
        let nxt1 := if y + 1 < height then
            (let nA := if 0 < x then
                errAdd (errAdd (errAdd st.2.2 ((x - 1) * 4) (errR * (3 / 16)))
                  ((x - 1) * 4 + 1) (errG * (3 / 16))) ((x - 1) * 4 + 2)
                  (errB * (3 / 16))
              else st.2.2
             let nB := errAdd (errAdd (errAdd nA (x * 4) (errR * (5 / 16)))
                (x * 4 + 1) (errG * (5 / 16))) (x * 4 + 2) (errB * (5 / 16))
             if x + 1 < width then
                errAdd (errAdd (errAdd nB ((x + 1) * 4) (errR * (1 / 16)))
                  ((x + 1) * 4 + 1) (errG * (1 / 16))) ((x + 1) * 4 + 2)
                  (errB * (1 / 16))
             else nB)
          else st.2.2
        (st.1.set x closest, cur1, nxt1))
    (row0, currErr, nextErr)

/-- One y-iteration of `floydSteinbergDither`: reset the next-row buffer
(`nextErr.fill(0)`), run the row, then swap the two buffers. -/
def fsStep (img : ImageData) (width height : Nat) (palette : List PaletteColor)
    (strength : ℚ) (st : List (List PaletteColor) × List ℚ × List ℚ)
    (y : Nat) : List (List PaletteColor) × List ℚ × List ℚ :=
  (st.1 ++ [(fsRow img width height palette strength y
      (List.replicate width (palette.getD 0 undefinedPaletteColor)) st.2.1
      (List.replicate (width * 4) 0)).1],
    (fsRow img width height palette strength y
      (List.replicate width (palette.getD 0 undefinedPaletteColor)) st.2.1
      (List.replicate (width * 4) 0)).2.2,
    (fsRow img width height palette strength y
      (List.replicate width (palette.getD 0 undefinedPaletteColor)) st.2.1
      (List.replicate (width * 4) 0)).2.1)

/-- `floydSteinbergDither` from dithering.ts (the result rows are
preinitialized to `palette[0]` and overwritten per non-transparent cell;
the per-row fold makes that per-row). -/
def floydSteinbergDither (img : ImageData) (width height : Nat)
    (palette : List PaletteColor) (strength : ℚ) : List (List PaletteColor) :=
  ((List.range height).foldl (fsStep img width height palette strength)
    ([], List.replicate (width * 4) 0, List.replicate (width * 4) 0)).1

def bayerMatrix : List (List ℚ) :=
  [[0, 8, 2, 10], [12, 4, 14, 6], [3, 11, 1, 9], [15, 7, 13, 5]]

/-- The normalized threshold `(v/16 - 0.5) * strength * 64` at (y, x). -/
def bayerVal (strength : ℚ) (y x : Nat) : ℚ :=
  (((bayerMatrix.getD (y % 4) []).getD (x % 4) 0) / 16 - 1 / 2) * strength * 64

/-- `bayerDither` from dithering.ts: per-pixel threshold added to each
channel, clamped, rounded, then the fast nearest-palette lookup;
transparent pixels keep the preinitialized `palette[0]`. -/
def bayerDither (img : ImageData) (width height : Nat)
    (palette : List PaletteColor) (strength : ℚ) : List (List PaletteColor) :=
  (List.range height).map fun y =>
    (List.range width).map fun x =>
      if img.data ((y * width + x) * 4 + 3) < 128 then
        palette.getD 0 undefinedPaletteColor
      else
        findClosestPaletteColorFast
          ⟨(jsRound (max 0 (min 255 ((img.data ((y * width + x) * 4) : ℚ) +
              bayerVal strength y x)))).toNat,
            (jsRound (max 0 (min 255 ((img.data ((y * width + x) * 4 + 1) : ℚ) +
              bayerVal strength y x)))).toNat,
            (jsRound (max 0 (min 255 ((img.data ((y * width + x) * 4 + 2) : ℚ) +
              bayerVal strength y x)))).toNat⟩
          palette

theorem get?_replicate {α : Type _} (a : α) : ∀ (n i : Nat), i < n →
    (List.replicate n a).get? i = some a
  | 0, _, h => by omega
  | _ + 1, 0, _ => rfl
  | n + 1, i + 1, h => get?_replicate a n i (by omega)

theorem fsRow_length (img : ImageData) (width height : Nat)
    (palette : List PaletteColor) (strength : ℚ) (y : Nat)
    (row0 : List PaletteColor) (c n : List ℚ) :
    (fsRow img width height palette strength y row0 c n).1.length = row0.length := by
  unfold fsRow
  refine foldl_invariant
    (fun (st : List PaletteColor × List ℚ × List ℚ) => st.1.length = row0.length)
    _ _ _ rfl ?_
  intro st hst x hx
  dsimp only
  split
  · exact hst
  · simpa using hst

theorem fsRow_transparent (img : ImageData) (width height : Nat)
    (palette : List PaletteColor) (strength : ℚ) (y : Nat)
    (row0 : List PaletteColor) (c n : List ℚ) (xT : Nat) (p0 : PaletteColor)
    (htr : img.data ((y * width + xT) * 4 + 3) < 128)
    (hrow : row0.get? xT = some p0) :
    (fsRow img width height palette strength y row0 c n).1.get? xT = some p0 := by
  unfold fsRow
  refine foldl_invariant
    (fun (st : List PaletteColor × List ℚ × List ℚ) => st.1.get? xT = some p0)
    _ _ _ hrow ?_
  intro st hst x hx
  dsimp only
  split
  · exact hst
  · rename_i halpha
    have hxne : x ≠ xT := fun he => halpha (he ▸ htr)
    rw [List.get?_set_ne _ _ hxne]
    exact hst

/-- Per-row guarantee used below: correct width, and transparent cells
hold the palette's first entry. -/
def GoodRow (img : ImageData) (width : Nat) (p0 : PaletteColor) (k : Nat)
    (row : List PaletteColor) : Prop :=
  row.length = width ∧ ∀ x, x < width →
    img.data ((k * width + x) * 4 + 3) < 128 → row.get? x = some p0

theorem fsLoop_spec (img : ImageData) (width height : Nat)
    (palette : List PaletteColor) (strength : ℚ) :
    ∀ (n s : Nat) (st : List (List PaletteColor) × List ℚ × List ℚ),
      st.1.length = s →
      (∀ k row, st.1.get? k = some row →
        GoodRow img width (palette.getD 0 undefinedPaletteColor) k row) →
      (((List.range' s n).foldl (fsStep img width height palette strength) st).1.length =
          s + n ∧
        ∀ k row,
          ((List.range' s n).foldl (fsStep img width height palette strength) st).1.get? k =
            some row →
          GoodRow img width (palette.getD 0 undefinedPaletteColor) k row) := by
  intro n
  induction n with
  | zero =>
    intro s st hlen hgood
    refine ⟨by simpa using hlen, hgood⟩
  | succ n ih =>
    intro s st hlen hgood
    rw [List.range'_succ]
    simp only [List.foldl_cons]
    have hnewlen : (fsStep img width height palette strength st s).1.length = s + 1 := by
      unfold fsStep
      simp [hlen]
    have hnewgood : ∀ k row,
        (fsStep img width height palette strength st s).1.get? k = some row →
        GoodRow img width (palette.getD 0 undefinedPaletteColor) k row := by
      intro k row hk
      unfold fsStep at hk
      simp only at hk
      by_cases hks : k < s
      · rw [List.get?_append (by omega)] at hk
        exact hgood k row hk
      · by_cases hkeq : k = s
        · have hkl : k = st.1.length := by omega
          rw [hkl, List.get?_concat_length] at hk
          obtain rfl := (Option.some_inj.mp hk).symm
          constructor
          · rw [fsRow_length]
            simp
          · intro x hx htr
            rw [hkeq] at htr
            exact fsRow_transparent img width height palette strength s _ _ _ x _
              htr (get?_replicate _ width x hx)
        · rw [List.get?_eq_none.mpr (by simp; omega)] at hk
          cases hk
    have := ih (s + 1) (fsStep img width height palette strength st s) hnewlen hnewgood
    refine ⟨?_, this.2⟩
    rw [this.1]
    omega

theorem palette_get?_zero (palette : List PaletteColor) (h : palette ≠ []) :
    palette.get? 0 = some (palette.getD 0 undefinedPaletteColor) := by
  cases palette with
  | nil => exact absurd rfl h
  | cons p rest => rfl

/-- Claim C9: for every buffer, width, height, non-empty palette and
strength, both dither algorithms return a height-by-width result in which
every cell whose source pixel has alpha below 128 holds the palette's
first entry `palette[0]`; no transparent marker appears in the output
(its cells are palette entries). -/
theorem claim9_dither_transparent_cells (img : ImageData) (width height : Nat)
    (palette : List PaletteColor) (strength : ℚ) (hpal : palette ≠ []) :
    ((floydSteinbergDither img width height palette strength).length = height ∧
      (∀ row ∈ floydSteinbergDither img width height palette strength,
        row.length = width) ∧
      ∀ y x, y < height → x < width →
        img.data ((y * width + x) * 4 + 3) < 128 →
        gridCell? (floydSteinbergDither img width height palette strength) y x =
          palette.get? 0) ∧
    ((bayerDither img width height palette strength).length = height ∧
      (∀ row ∈ bayerDither img width height palette strength,
        row.length = width) ∧
      ∀ y x, y < height → x < width →
        img.data ((y * width + x) * 4 + 3) < 128 →
        gridCell? (bayerDither img width height palette strength) y x =
          palette.get? 0) := by
  have hspec := fsLoop_spec img width height palette strength height 0
    ([], List.replicate (width * 4) 0, List.replicate (width * 4) 0)
    rfl (by intro k row hk; simp at hk)
  rw [← List.range_eq_range'] at hspec
  constructor
  · refine ⟨?_, ?_, ?_⟩
    · unfold floydSteinbergDither
      rw [hspec.1]
      omega
    · intro row hrow
      obtain ⟨k, hk⟩ := List.mem_iff_get?.mp hrow
      exact (hspec.2 k row hk).1
    · intro y x hy hx htr
      unfold gridCell?
      have hylen : y < (floydSteinbergDither img width height palette strength).length := by
        unfold floydSteinbergDither
        rw [hspec.1]
        omega
      obtain ⟨row, hrow⟩ : ∃ row,
          (floydSteinbergDither img width height palette strength).get? y = some row :=
        ⟨_, List.get?_eq_get hylen⟩
      rw [hrow]
      have hgood := hspec.2 y row hrow
      rw [palette_get?_zero palette hpal]
      exact hgood.2 x hx htr
  · refine ⟨by simp [bayerDither], ?_, ?_⟩
    · intro row hrow
      unfold bayerDither at hrow
      obtain ⟨y, _, rfl⟩ := List.mem_map.mp hrow
      simp
    · intro y x hy hx htr
      unfold gridCell? bayerDither
      rw [get?_range_map _ _ _ hy]
      have hbind : ∀ (l : List PaletteColor) (f : List PaletteColor → Option PaletteColor),
          (some l).bind f = f l := fun _ _ => rfl
      rw [hbind, get?_range_map _ _ _ hx, if_pos htr, palette_get?_zero palette hpal]

theorem claim9_witness :
    demoRedBlue ≠ [] ∧
    gridCell? (floydSteinbergDither ⟨1, fun _ => 0⟩ 1 1 demoRedBlue 1) 0 0 =
      demoRedBlue.get? 0 ∧
    gridCell? (bayerDither ⟨1, fun _ => 0⟩ 1 1 demoRedBlue 1) 0 0 =
      demoRedBlue.get? 0 :=
  ⟨by decide,
    (claim9_dither_transparent_cells ⟨1, fun _ => 0⟩ 1 1 demoRedBlue 1
        (by decide)).1.2.2 0 0 (by decide) (by decide) (Nat.succ_pos 127),
    (claim9_dither_transparent_cells ⟨1, fun _ => 0⟩ 1 1 demoRedBlue 1
        (by decide)).2.2.2 0 0 (by decide) (by decide) (Nat.succ_pos 127)⟩
